import Mathlib

/-!
Verification of the semantic lowering engine of `adl2gestalt`
(`src/adl2gestalt/converter.py` and `src/adl2gestalt/widget_mapper.py`).

The Python code is shallowly embedded: strings are Lean `String`s
(lists of characters), Python `str.replace` is modelled by an explicit
left-to-right non-overlapping replacement function, dictionaries are
association lists in insertion order, and the converter object's mutable
attributes (`color_map`, `color_aliases`, `calc_node_counter`,
`calc_nodes`, `display_width`, `display_height`) are threaded through an
explicit state record.  Python exceptions (`int()` / `float()` failures
on malformed strings) are modelled with `Except`.  Recursion over the
widget tree is modelled with an explicit fuel parameter; exhausting the
fuel yields an error, so every theorem about an `Except.ok` result is a
statement about the real (terminating) computation.
-/

set_option maxRecDepth 10000
set_option maxHeartbeats 1000000

namespace Adl

/-! ### Python string primitives -/

/-- `startsL pat s` is true when `pat` is an initial segment of `s`
(the test `s.startswith(pat)` used implicitly by `str.replace`). -/
def startsL : List Char → List Char → Bool
  | [], _ => true
  | _ :: _, [] => false
  | p :: ps, c :: cs => p == c && startsL ps cs

/-- Fueled core of Python `str.replace`: scan left to right; wherever the
(non-empty) pattern matches, emit the replacement and skip the match,
otherwise copy one character.  `fuel ≥ length s` makes the scan total. -/
def replaceFuel (pat repl : List Char) : Nat → List Char → List Char
  | _, [] => []
  | 0, s => s
  | f + 1, c :: rest =>
    if !pat.isEmpty && startsL pat (c :: rest) then
      repl ++ replaceFuel pat repl f (rest.drop (pat.length - 1))
    else
      c :: replaceFuel pat repl f rest

/-- Python `s.replace(pat, repl)` on character lists. -/
def replaceL (pat repl s : List Char) : List Char :=
  replaceFuel pat repl s.length s

/-- Python `s.replace(old, new)` on strings. -/
def pyReplace (s old new : String) : String :=
  ⟨replaceL old.data new.data s.data⟩

/-- Does `pat` occur as a contiguous substring? -/
def containsSubL (pat : List Char) : List Char → Bool
  | [] => startsL pat []
  | c :: rest => startsL pat (c :: rest) || containsSubL pat rest

/-- Substring test on strings (used only to state theorems). -/
def occursIn (needle hay : String) : Bool :=
  containsSubL needle.data hay.data

/-! ### Small helpers shared by the embedding -/

/-- Python `dict` lookup on an insertion-ordered association list
(keys are unique in all dictionaries the converter builds or reads). -/
def lookupKV {κ α : Type} [DecidableEq κ] : List (κ × α) → κ → Option α
  | [], _ => none
  | (k, v) :: rest, key => if k = key then some v else lookupKV rest key

/-- Decimal digits of `n`, least significant first (`fuel ≥ n` suffices). -/
def natDigsAux : Nat → Nat → List Nat
  | _, 0 => []
  | 0, _ + 1 => []
  | f + 1, n + 1 => ((n + 1) % 10) :: natDigsAux f ((n + 1) / 10)

/-- Value of a least-significant-first decimal digit list. -/
def ofRevDigits : List Nat → Nat
  | [] => 0
  | d :: rest => d + 10 * ofRevDigits rest

/-- Decimal rendering of a natural number (Python `str(n)` for `n ≥ 0`). -/
def natToStr (n : Nat) : String :=
  if n = 0 then "0"
  else ⟨((natDigsAux n n).reverse.map (fun d => Char.ofNat (48 + d)))⟩

/-- Decimal rendering of an integer (Python `str(i)`). -/
def intToStr : Int → String
  | .ofNat n => natToStr n
  | .negSucc n => "-" ++ natToStr (n + 1)

/-- Python `sep.join(parts)`. -/
def joinSep (sep : String) : List String → String
  | [] => ""
  | [x] => x
  | x :: rest => x ++ sep ++ joinSep sep rest

/-- `Path(name).name`: the part after the last `/`. -/
def basenameOf (s : String) : String :=
  go s.data s.data
where
  go (acc : List Char) : List Char → String
    | [] => ⟨acc⟩
    | '/' :: rest => go rest rest
    | _ :: rest => go acc rest

/-- Python `int(str)` on a string value: optional sign then decimal
digits (malformed input raises `ValueError`, modelled as `none`). -/
def parseIntL : List Char → Option Int
  | [] => none
  | '-' :: rest => (parseNatL rest).map (fun n => -(n : Int))
  | s => (parseNatL s).map (fun n => (n : Int))
where
  parseNatL (s : List Char) : Option Nat :=
    if s.isEmpty then none
    else if s.all (fun c => c.isDigit) then
      some (s.foldl (fun acc c => acc * 10 + (c.toNat - 48)) 0)
    else none

/-- Python `int(float(str))`: parse a decimal literal with an optional
fractional part and truncate toward zero (exponent forms, which do not
occur in ADL angle fields, are treated as malformed). -/
def parseDecTrunc (s : List Char) : Option Int :=
  match s with
  | '-' :: rest => (core rest).map (fun n => -(n : Int))
  | _ => (core s).map (fun n => (n : Int))
where
  core (s : List Char) : Option Nat :=
    let ip := s.takeWhile (fun c => c.isDigit)
    let rest := s.dropWhile (fun c => c.isDigit)
    let ipVal := ip.foldl (fun acc c => acc * 10 + (c.toNat - 48)) 0
    match rest with
    | [] => if ip.isEmpty then none else some ipVal
    | '.' :: frac =>
      if frac.all (fun c => c.isDigit) && !(ip.isEmpty && frac.isEmpty) then
        some ipVal
      else none
    | _ => none

/-! ### Expression compiler (`convert_medm_to_python`) -/

/-- The `function_mappings` table, in source (insertion) order. -/
def function_mappings : List (String × String) :=
  [("ABS", "abs"), ("SQR", "math.sqrt"), ("MIN", "min"), ("MAX", "max"),
   ("CEIL", "math.ceil"), ("FLOOR", "math.floor"), ("LOG", "math.log10"),
   ("LOGE", "math.log"), ("EXP", "math.exp"), ("SIN", "math.sin"),
   ("SINH", "math.sinh"), ("ASIN", "math.asin"), ("COS", "math.cos"),
   ("COSH", "math.cosh"), ("ACOS", "math.acos"), ("TAN", "math.tan"),
   ("TANH", "math.tanh"), ("ATAN", "math.atan")]

/-- `MedmToGestaltConverter.convert_medm_to_python`: rewrite a MEDM
C-like expression into Python syntax by ordered string substitution. -/
def convert_medm_to_python (medm_expression : String) : String :=
  if medm_expression = "" then medm_expression
  else
    let p := pyReplace medm_expression "#" "!="
    let p := pyReplace p "!=" "___NE___"
    let p := pyReplace p "=" "=="
    let p := pyReplace p " !" " not "
    let p := pyReplace p "! " " not "
    let p := pyReplace p "!" " not "
    let p := pyReplace p "___NE___" "!="
    let p := pyReplace p "&&" " and "
    let p := pyReplace p "||" " or "
    function_mappings.foldl (fun acc kv => pyReplace acc kv.1 kv.2) p

/-! ### Color resolver (`build_color_map`, `get_color_reference`) -/

/-- An RGB triple from the MEDM color table.
Modelled from the spec: the `Color` namedtuple produced by the external
structural parser (not under `src/`) exposes integer `r`, `g`, `b`. -/
structure Color where
  r : Nat
  g : Nat
  b : Nat
deriving DecidableEq, Repr

/-- Lowercase hexadecimal digits of `n`, least significant first. -/
def hexDigsAux : Nat → Nat → List Char
  | _, 0 => []
  | 0, _ + 1 => []
  | f + 1, n + 1 =>
    (Nat.digitChar ((n + 1) % 16)) :: hexDigsAux f ((n + 1) / 16)

/-- Python `f"{n:02x}"`: lowercase hex, zero-padded to at least 2 digits. -/
def hex2 (n : Nat) : String :=
  let ds := if n = 0 then ['0'] else (hexDigsAux n n).reverse
  ⟨(List.replicate (2 - ds.length) '0') ++ ds⟩

/-- The hex token `f"${color.r:02x}{color.g:02x}{color.b:02x}"`. -/
def color_hex (c : Color) : String :=
  "$" ++ hex2 c.r ++ hex2 c.g ++ hex2 c.b

/-- The keys of the `standard_colors` dictionary in `build_color_map`
(the mapped names are never read by the code). -/
def standard_colors : List Color :=
  [⟨255, 255, 255⟩, ⟨0, 0, 0⟩, ⟨255, 0, 0⟩, ⟨0, 255, 0⟩, ⟨0, 0, 255⟩,
   ⟨255, 255, 0⟩, ⟨0, 255, 255⟩, ⟨255, 0, 255⟩, ⟨128, 128, 128⟩,
   ⟨192, 192, 192⟩]

/-- `f"medm_color_{i}"`. -/
def aliasName (i : Nat) : String :=
  "medm_color_" ++ natToStr i

/-- The loop body of `build_color_map`, producing the `color_map`
entries (index → token) and the `color_aliases` entries
(underscored alias key → hex literal) from start index `i` on. -/
def build_color_map_entries : Nat → List Color → List (Nat × String) × List (String × String)
  | _, [] => ([], [])
  | i, c :: rest =>
    let prev := build_color_map_entries (i + 1) rest
    if c ∈ standard_colors then
      ((i, color_hex c) :: prev.1, prev.2)
    else
      ((i, "*" ++ aliasName i) :: prev.1,
       ("_" ++ aliasName i, color_hex c) :: prev.2)

/-- One record per synthesized Calc node (the dict appended to
`self.calc_nodes`). -/
structure CalcInfo where
  name : String
  expression : String
  channel_a : String
  channel_b : String
  channel_c : String
  channel_d : String
deriving DecidableEq, Repr

/-- The mutable attributes of `MedmToGestaltConverter`:
`color_map`, `color_aliases`, `calc_node_counter`, the lazily created
`calc_nodes` (`none` models a missing attribute, as tested by
`hasattr`), and the display dimensions set by `convert_display`
(`none` models the attribute not yet having been set). -/
structure ConvState where
  color_map : List (Nat × String)
  color_aliases : List (String × String)
  calc_node_counter : Nat
  calc_nodes : Option (List CalcInfo)
  display_width : Option Int
  display_height : Option Int
deriving DecidableEq, Repr

/-- The state established by `MedmToGestaltConverter.__init__`. -/
def initState : ConvState :=
  { color_map := [], color_aliases := [], calc_node_counter := 0,
    calc_nodes := none, display_width := none, display_height := none }

/-- `MedmToGestaltConverter.build_color_map`: reset `color_map` and
`color_aliases` and rebuild them from the document's color table.
No other converter attribute is touched. -/
def build_color_map (st : ConvState) (color_table : List Color) : ConvState :=
  let (m, a) := build_color_map_entries 0 color_table
  { st with color_map := m, color_aliases := a }

/-! ### Geometry and re-basing -/

/-- Modelled from the spec: the `Geometry` value produced by the external
structural parser (not under `src/`) holds integer `x`, `y`, `width`,
`height` in source pixel units. -/
structure Geometry where
  x : Int
  y : Int
  width : Int
  height : Int
deriving DecidableEq, Repr

/-- The re-basing operation used during group flattening
(`converter.py` lines 701–710): `Geometry(child.x - group_x,
child.y - group_y, child.width, child.height)`. -/
def rebaseGeometry (g : Geometry) (x0 y0 : Int) : Geometry :=
  { x := g.x - x0, y := g.y - y0, width := g.width, height := g.height }

/-! ### Widget data model -/

/-- A widget color attribute: the external parser stores either a
`Color` object or a palette index (spec §3: "either a direct RGB triple
or an index into the document's color table"). -/
inductive ColorVal where
  | rgb (c : Color)
  | idx (n : Nat)
deriving DecidableEq, Repr

/-- Python truthiness of an optional color attribute: a missing
attribute and the index `0` are falsy, a `Color` tuple and any non-zero
index are truthy. -/
def colorTruthy : Option ColorVal → Bool
  | none => false
  | some (.rgb _) => true
  | some (.idx n) => n != 0

/-- A value in a widget's `contents` mapping: either a scalar string or
a nested sub-record dictionary ("control", "monitor",
"dynamic attribute", "basic attribute"). -/
inductive ContentVal where
  | str (s : String)
  | dct (d : List (String × String))
deriving DecidableEq, Repr

/-- The string a scalar content value contributes to an f-string
(sub-record values never reach the f-string paths in parsed files). -/
def pyStr : ContentVal → String
  | .str s => s
  | .dct _ => ""

/-- A point of a polyline/polygon widget. -/
structure Pt where
  x : Int
  y : Int
deriving DecidableEq, Repr

/-- A widget node produced by the external parser.  `Option` fields
model attributes whose presence the converter probes with `hasattr`
(`title`, `geometry`, colors, `displays`, `commands`, `points`,
`widgets`). -/
inductive Widget where
  | mk (symbol : String)
       (title : Option String)
       (geometry : Option Geometry)
       (color : Option ColorVal)
       (background_color : Option ColorVal)
       (contents : List (String × ContentVal))
       (displays : Option (List (List (String × String))))
       (commands : Option (List (List (String × String))))
       (points : Option (List Pt))
       (widgets : Option (List Widget))

def Widget.symbol : Widget → String
  | .mk s _ _ _ _ _ _ _ _ _ => s

def Widget.title : Widget → Option String
  | .mk _ t _ _ _ _ _ _ _ _ => t

def Widget.geometry : Widget → Option Geometry
  | .mk _ _ g _ _ _ _ _ _ _ => g

def Widget.color : Widget → Option ColorVal
  | .mk _ _ _ c _ _ _ _ _ _ => c

def Widget.background_color : Widget → Option ColorVal
  | .mk _ _ _ _ b _ _ _ _ _ => b

def Widget.contents : Widget → List (String × ContentVal)
  | .mk _ _ _ _ _ c _ _ _ _ => c

def Widget.displays : Widget → Option (List (List (String × String)))
  | .mk _ _ _ _ _ _ d _ _ _ => d

def Widget.commands : Widget → Option (List (List (String × String)))
  | .mk _ _ _ _ _ _ _ c _ _ => c

def Widget.points : Widget → Option (List Pt)
  | .mk _ _ _ _ _ _ _ _ p _ => p

def Widget.widgets : Widget → Option (List Widget)
  | .mk _ _ _ _ _ _ _ _ _ w => w

/-- Replace the `geometry` attribute (the in-place assignment
`child.geometry = ...` during group flattening). -/
def Widget.withGeometry : Widget → Option Geometry → Widget
  | .mk s t _ c b co d cm p w, g => .mk s t g c b co d cm p w

/-- Replace the `widgets` attribute (the children list after the
children objects have been processed in place). -/
def Widget.withWidgets : Widget → Option (List Widget) → Widget
  | .mk s t g c b co d cm p _, w => .mk s t g c b co d cm p w

/-! ### Static tables from `widget_mapper.py` -/

/-- `WIDGET_TYPE_MAP`: MEDM widget symbol → Gestalt widget type. -/
def WIDGET_TYPE_MAP : List (String × String) :=
  [("arc", "Arc"), ("image", "Image"), ("line", "Polyline"),
   ("oval", "Ellipse"), ("polygon", "Polygon"), ("polyline", "Polyline"),
   ("rectangle", "Rectangle"), ("text", "Text"),
   ("bar", "Scale"), ("byte", "ByteMonitor"),
   ("cartesian plot", "XYPlot"), ("meter", "Meter"), ("scale", "Scale"),
   ("strip chart", "StripChart"), ("text update", "TextMonitor"),
   ("indicator", "LED"),
   ("choice button", "ChoiceButton"), ("menu", "Menu"),
   ("message button", "MessageButton"),
   ("related display", "RelatedDisplay"),
   ("shell command", "ShellCommand"), ("slider", "Slider"),
   ("valuator", "Slider"), ("text entry", "TextEntry"),
   ("wheel switch", "WheelSwitch"),
   ("composite", "Group"), ("embedded display", "Embed")]

/-- The `shapes` list of `convert_widget_to_lines` (closed shapes whose
colors are handled by `add_widget_properties_lines`). -/
def shapesList : List String := ["Arc", "Ellipse", "Rectangle", "Polygon"]

/-- The `all_shapes` list (closed shapes plus `Polyline`). -/
def allShapesList : List String :=
  ["Arc", "Ellipse", "Rectangle", "Polygon", "Polyline"]

/-! ### Color reference resolution -/

/-- `list.index(color)`: the first index holding an equal color. -/
def idxOfColor : List Color → Color → Option Nat
  | [], _ => none
  | c :: rest, target =>
    if c = target then some 0 else (idxOfColor rest target).map (· + 1)

/-- `MedmToGestaltConverter.get_color_reference`: `None` input passes
through; a `Color` value is looked up in the table (a failed lookup —
Python `ValueError` — falls back to opaque black), an index is used
directly; the index is resolved through `color_map` with `"$000000"`
as default. -/
def get_color_reference (st : ConvState) (color : Option ColorVal)
    (color_table : List Color) : Option String :=
  match color with
  | none => none
  | some (.rgb c) =>
    match idxOfColor color_table c with
    | some i => some ((lookupKV st.color_map i).getD "$000000")
    | none => some "$000000"
  | some (.idx n) => some ((lookupKV st.color_map n).getD "$000000")

/-! ### `add_widget_properties_lines`, section by section (source order) -/

/-- `contents` shorthand used by all the section helpers below. -/
abbrev Contents := List (String × ContentVal)

/-- Lines 417–428: `pv` lines from the "control" / "monitor"
sub-records (only when the value is a dict with a "chan" field). -/
def pvLines (c : Contents) : List String :=
  (match lookupKV c "control" with
   | some (.dct d) =>
     match lookupKV d "chan" with
     | some ch => ["    pv: \"" ++ ch ++ "\""]
     | none => []
   | _ => []) ++
  (match lookupKV c "monitor" with
   | some (.dct d) =>
     match lookupKV d "chan" with
     | some ch => ["    pv: \"" ++ ch ++ "\""]
     | none => []
   | _ => [])

/-- Lines 430–432: `text` from the title of a `Text` widget
(emitted whenever the `title` attribute exists). -/
def textLines (wt : String) (w : Widget) : List String :=
  if wt = "Text" then
    match w.title with
    | some t => ["    text: \"" ++ t ++ "\""]
    | none => []
  else []

/-- The `format_map` dictionary (lines 437–445). -/
def format_map : List (String × String) :=
  [("decimal", "Decimal"), ("exponential", "Exponential"),
   ("engr. notation", "Engineering"), ("compact", "Compact"),
   ("hexadecimal", "Hexadecimal"), ("string", "String"),
   ("binary", "Binary")]

/-- The `align_map` dictionary (lines 450–454). -/
def align_map : List (String × String) :=
  [("horiz. left", "Left"), ("horiz. centered", "Center"),
   ("horiz. right", "Right")]

/-- Lines 434–456: format / alignment for `TextEntry` / `TextMonitor`. -/
def formatAlignLines (wt : String) (c : Contents) : List String :=
  if wt = "TextEntry" ∨ wt = "TextMonitor" then
    (match lookupKV c "format" with
     | some v => ["    format: " ++ (lookupKV format_map (pyStr v)).getD "Decimal"]
     | none => []) ++
    (match lookupKV c "align" with
     | some v => ["    alignment: " ++ (lookupKV align_map (pyStr v)).getD "Left"]
     | none => [])
  else []

/-- Lines 458–463: orientation for `Scale` / `Slider`. -/
def sliderLines (wt : String) (c : Contents) : List String :=
  if wt = "Scale" ∨ wt = "Slider" then
    match lookupKV c "direction" with
    | some v =>
      if pyStr v = "up" ∨ pyStr v = "down" then ["    horizontal: false"]
      else ["    horizontal: true"]
    | none => ["    horizontal: true"]
  else []

/-- Lines 465–470: label text and press value for `MessageButton`. -/
def buttonLines (wt : String) (c : Contents) : List String :=
  if wt = "MessageButton" then
    (match lookupKV c "label" with
     | some v => ["    text: \"" ++ pyStr v ++ "\""]
     | none => []) ++
    (match lookupKV c "press_msg" with
     | some v => ["    value: \"" ++ pyStr v ++ "\""]
     | none => [])
  else []

/-- Lines 474–479 (`clean_medm_label`): strip one leading `-`. -/
def clean_medm_label (label : String) : String :=
  match label.data with
  | '-' :: rest => ⟨rest⟩
  | _ => label

/-- Lines 481–497: button label and link records for `RelatedDisplay`
(labels run through `clean_medm_label`). -/
def relatedDisplayLines (wt : String) (w : Widget) (c : Contents) : List String :=
  if wt = "RelatedDisplay" then
    match w.displays with
    | some ds =>
      (match lookupKV c "label" with
       | some v => ["    text: \"" ++ clean_medm_label (pyStr v) ++ "\""]
       | none => []) ++
      (if ds.isEmpty then []
       else "    links:" ::
         ds.filterMap (fun d =>
           (lookupKV d "name").map (fun nm =>
             "        - \x7b label: \"" ++
               clean_medm_label ((lookupKV d "label").getD nm) ++
             "\", file: \"" ++ nm ++
             "\", macros: \"" ++ (lookupKV d "args").getD "" ++ "\" \x7d")))
    | none => []
  else []

/-- Lines 499–513: button label and command records for `ShellCommand`
(labels are emitted verbatim — `clean_medm_label` is not applied). -/
def shellCommandLines (wt : String) (w : Widget) (c : Contents) : List String :=
  if wt = "ShellCommand" then
    match w.commands with
    | some cs =>
      (match lookupKV c "label" with
       | some v => ["    text: \"" ++ pyStr v ++ "\""]
       | none => []) ++
      (if cs.isEmpty then []
       else "    commands:" ::
         cs.filterMap (fun cmd =>
           (lookupKV cmd "name").map (fun nm =>
             "        - \x7b label: \"" ++ (lookupKV cmd "label").getD "Command" ++
             "\", command: \"" ++ nm ++ "\" \x7d")))
    | none => []
  else []

/-- Lines 515–538: the point list of `Polyline` / `Polygon`, re-based
to the widget's own geometry origin. -/
def pointsLines (wt : String) (w : Widget) : List String :=
  if wt = "Polyline" ∨ wt = "Polygon" then
    match w.points with
    | some ps =>
      if ps.isEmpty then []
      else
        let wx := match w.geometry with | some g => g.x | none => 0
        let wy := match w.geometry with | some g => g.y | none => 0
        ["    points: [ " ++
           joinSep ", " (ps.map (fun p =>
             intToStr (p.x - wx) ++ "x" ++ intToStr (p.y - wy))) ++ " ]"]
    | none => []
  else []

/-- Lines 540–545: `Polyline` color — always outlined, only a
border-color line. -/
def polylineColorLines (wt : String) (w : Widget) (st : ConvState)
    (color_table : List Color) : List String :=
  if wt = "Polyline" ∧ colorTruthy w.color then
    match get_color_reference st w.color color_table with
    | some fg => if fg ≠ "" then ["    border-color: " ++ fg] else []
    | none => []
  else []

/-- Lines 552–560: the `is_outlined` test of the closed-shape color
handling — the basic-attribute sub-record maps "fill" to "outline". -/
def isOutlined (c : List (String × ContentVal)) : Bool :=
  match lookupKV c "basic attribute" with
  | some (.dct ba) => lookupKV ba "fill" == some "outline"
  | _ => false

/-- Lines 547–568: closed shapes route the foreground color into
background + border-color when filled, border-color only when the
basic-attribute fill mode is "outline". -/
def shapeColorLines (wt : String) (w : Widget) (st : ConvState)
    (color_table : List Color) (c : Contents) : List String :=
  if wt ∈ shapesList ∧ colorTruthy w.color then
    match get_color_reference st w.color color_table with
    | some fg =>
      if fg ≠ "" then
        if isOutlined c then ["    border-color: " ++ fg]
        else ["    background: " ++ fg, "    border-color: " ++ fg]
      else []
    | none => []
  else []

/-- The `style_map` dictionary (lines 578–581). -/
def style_map : List (String × String) :=
  [("solid", "Solid"), ("dash", "Dashed")]

/-- Lines 569–584: border width / style for all shapes. -/
def borderLines (wt : String) (c : Contents) : List String :=
  if wt ∈ allShapesList then
    match lookupKV c "basic attribute" with
    | some (.dct ba) =>
      (match lookupKV ba "width" with
       | some v => ["    border-width: " ++ v]
       | none => []) ++
      (match lookupKV ba "style" with
       | some v =>
         ["    border-style: " ++
            (lookupKV style_map ⟨v.data.map Char.toLower⟩).getD "Solid"]
       | none => [])
    | _ => []
  else []

/-- Lines 586–589: image file. -/
def imageLines (wt : String) (c : Contents) : List String :=
  if wt = "Image" then
    match lookupKV c "image name" with
    | some v => ["    file: \"" ++ pyStr v ++ "\""]
    | none => []
  else []

/-- Lines 591–637: visibility from the "dynamic attribute" sub-record.
"calc" mode increments `calc_node_counter`, appends a `CalcInfo` record
to (the lazily created) `calc_nodes`, and emits a visibility line
naming the new node's `.CALC` output channel. -/
def visibilitySection (st : ConvState) (c : Contents) : ConvState × List String :=
  match lookupKV c "dynamic attribute" with
  | some (.dct da) =>
    match lookupKV da "vis", lookupKV da "chan" with
    | some vis, some chan_a =>
      if vis = "if not zero" then
        (st, ["    visibility: \"" ++ chan_a ++ "\""])
      else if vis = "if zero" then
        (st, ["    visibility: !Not \"" ++ chan_a ++ "\""])
      else if vis = "calc" then
        let calc_expression := (lookupKV da "calc").getD ""
        let chan_b := (lookupKV da "chanB").getD ""
        let chan_c := (lookupKV da "chanC").getD ""
        let chan_d := (lookupKV da "chanD").getD ""
        if calc_expression ≠ "" ∧ chan_a ≠ "" then
          let n := st.calc_node_counter + 1
          let calc_name := "EnableCalc_" ++ natToStr n
          ({ st with
               calc_node_counter := n,
               calc_nodes := some (st.calc_nodes.getD [] ++
                 [⟨calc_name, calc_expression, chan_a, chan_b, chan_c, chan_d⟩]) },
           ["    visibility: \"" ++ calc_name ++ ".CALC\""])
        else (st, [])
      else (st, [])
    | _, _ => (st, [])
  | _ => (st, [])

/-- Lines 639–657: `ByteMonitor` bit range (`int()` of the `sbit` /
`ebit` strings can raise) and on/off colors. -/
def byteMonitorLines (wt : String) (c : Contents) (w : Widget)
    (st : ConvState) (color_table : List Color) : Except String (List String) :=
  if wt = "ByteMonitor" then do
    let sbit ← match lookupKV c "sbit" with
      | none => pure (15 : Int)
      | some (.str s) =>
        match parseIntL s.data with
        | some n => pure n
        | none => throw "invalid literal for int()"
      | some (.dct _) => throw "int() argument must be a string or a number"
    let ebit ← match lookupKV c "ebit" with
      | none => pure (0 : Int)
      | some (.str s) =>
        match parseIntL s.data with
        | some n => pure n
        | none => throw "invalid literal for int()"
      | some (.dct _) => throw "int() argument must be a string or a number"
    let num_bits := (sbit - ebit).natAbs + 1
    let start_bit := min sbit ebit
    let base := ["    bits: " ++ natToStr num_bits,
                 "    start-bit: " ++ intToStr start_bit]
    let onL := if colorTruthy w.color then
        ["    on-color: " ++ (get_color_reference st w.color color_table).getD ""]
      else []
    let offL := if colorTruthy w.background_color then
        ["    off-color: " ++
           (get_color_reference st w.background_color color_table).getD ""]
      else []
    pure (base ++ onL ++ offL)
  else pure []

/-- Lines 659–664: `ChoiceButton` orientation from the presence of the
"stacking" key. -/
def choiceLines (wt : String) (c : Contents) : List String :=
  if wt = "ChoiceButton" then
    match lookupKV c "stacking" with
    | some _ => ["    horizontal: True"]
    | none => ["    horizontal: False"]
  else []

/-- Lines 666–675: `Arc` angles, `int(float(...))` of the angle
strings (can raise on malformed input). -/
def arcLines (wt : String) (c : Contents) : Except String (List String) :=
  if wt = "Arc" then do
    let l1 ← match lookupKV c "beginAngle" with
      | some v =>
        match parseDecTrunc (pyStr v).data with
        | some a => pure ["    start-angle: " ++ intToStr a]
        | none => throw "could not convert string to float"
      | none => pure []
    let l2 ← match lookupKV c "pathAngle" with
      | some v =>
        match parseDecTrunc (pyStr v).data with
        | some a => pure ["    span: " ++ intToStr a]
        | none => throw "could not convert string to float"
      | none => pure []
    pure (l1 ++ l2)
  else pure []

/-! ### Group flattening and the widget dispatcher -/

/-- The result type of one dispatcher call: the converter state after
the call, the emitted lines, and the widget object as it stands when
the call returns (capturing the in-place geometry substitutions). -/
abbrev ConvResult := ConvState × List String × Widget

/-- Lines 695–730, the loop over a group's children: each child with a
geometry is temporarily given a geometry re-based to the group origin,
lowered recursively (`recurse` is the dispatcher at one less fuel), and
its original geometry is restored afterward; non-empty child output is
indented by 8 spaces. -/
def processChildren
    (recurse : ConvState → Widget → Nat → List Color → Except String ConvResult)
    (st : ConvState) (gx gy : Int) (i : Nat) (color_table : List Color) :
    List Widget → Except String (ConvState × List String × List Widget)
  | [] => .ok (st, [], [])
  | child :: rest => do
    let (st1, childLines, childDone) ←
      match child.geometry with
      | some g => do
        let childSub := child.withGeometry (some (rebaseGeometry g gx gy))
        let (st1, cl, cAfter) ← recurse st childSub i color_table
        pure (st1, cl, cAfter.withGeometry (some g))
      | none => recurse st child i color_table
    let emitted := if childLines.isEmpty then []
                   else childLines.map (fun l => "        " ++ l)
    let (st2, restLines, restDone) ←
      processChildren recurse st1 gx gy (i + 1) color_table rest
    .ok (st2, emitted ++ restLines, childDone :: restDone)

/-- Lines 677–730: the `Group` branch of `add_widget_properties_lines`:
emit a `children:` block by recursively lowering each child re-based to
the group's origin. -/
def groupSection
    (recurse : ConvState → Widget → Nat → List Color → Except String ConvResult)
    (st : ConvState) (w : Widget) (wt : String) (color_table : List Color) :
    Except String ConvResult :=
  if wt = "Group" then
    match w.widgets with
    | some ws =>
      if ws.isEmpty then .ok (st, [], w)
      else do
        let gx := match w.geometry with | some g => g.x | none => 0
        let gy := match w.geometry with | some g => g.y | none => 0
        let (st', childLines, ws') ←
          processChildren recurse st gx gy 0 color_table ws
        .ok (st', "    children:" :: childLines, w.withWidgets (some ws'))
    | none => .ok (st, [], w)
  else .ok (st, [], w)

/-- The pure sections of `add_widget_properties_lines` that precede the
visibility handling, concatenated in source order (lines 417–589). -/
def preLines (wt : String) (w : Widget) (st : ConvState)
    (color_table : List Color) : List String :=
  let c := w.contents
  pvLines c ++ textLines wt w ++ formatAlignLines wt c ++
  sliderLines wt c ++ buttonLines wt c ++ relatedDisplayLines wt w c ++
  shellCommandLines wt w c ++ pointsLines wt w ++
  polylineColorLines wt w st color_table ++
  shapeColorLines wt w st color_table c ++ borderLines wt c ++
  imageLines wt c

/-- `MedmToGestaltConverter.add_widget_properties_lines`: append the
per-widget-kind property lines to `lines` (the list built so far by the
dispatcher), updating the converter state (visibility Calc nodes) and
the widget (transient group-child geometry substitution, restored). -/
def add_widget_properties_lines
    (recurse : ConvState → Widget → Nat → List Color → Except String ConvResult)
    (st : ConvState) (w : Widget) (lines : List String) (wt : String)
    (color_table : List Color) : Except String ConvResult := do
  let c := w.contents
  let vres := visibilitySection st c
  let byteL ← byteMonitorLines wt c w vres.1 color_table
  let arcL ← arcLines wt c
  let gres ← groupSection recurse vres.1 w wt color_table
  .ok (gres.1,
       lines ++ preLines wt w st color_table ++ vres.2 ++ byteL ++
         choiceLines wt c ++ arcL ++ gres.2.1,
       gres.2.2)

/-- Lines 267–283: is the widget completely outside the display area?
(Checked only when the widget has a geometry; the display dimensions
default to 437 × 274 when `convert_display` has not set them.) -/
def outsideCanvas (st : ConvState) (w : Widget) : Bool :=
  match w.geometry with
  | some g =>
    let display_width := st.display_width.getD 437
    let display_height := st.display_height.getD 274
    decide (g.x + g.width < 0) || decide (g.x > display_width) ||
    decide (g.y + g.height < 0) || decide (g.y > display_height)
  | none => false

/-- Lines 294–301: the generated widget name — sanitized symbol plus
index, or sanitized 20-character title prefix plus index when a
non-empty title exists. -/
def widget_name_of (w : Widget) (i : Nat) : String :=
  let base := pyReplace w.symbol " " "_" ++ "_" ++ natToStr i
  match w.title with
  | some t =>
    if t ≠ "" then
      pyReplace (pyReplace (pyReplace ⟨t.data.take 20⟩ " " "_") "/" "_") ":" "" ++
        "_" ++ natToStr i
    else base
  | none => base

/-- Lines 306–310: the geometry line. -/
def geometryLines (w : Widget) : List String :=
  match w.geometry with
  | some g =>
    ["    geometry: " ++ intToStr g.x ++ "x" ++ intToStr g.y ++ "x" ++
       intToStr g.width ++ "x" ++ intToStr g.height]
  | none => []

/-- Lines 312–326: the generic foreground/background color lines
(skipped for closed shapes; `Polyline` gets `border-color`). -/
def genericColorLines (wt : String) (w : Widget) (st : ConvState)
    (color_table : List Color) : List String :=
  (if colorTruthy w.color then
     match get_color_reference st w.color color_table with
     | some fg =>
       if fg ≠ "" ∧ wt ∉ shapesList then
         if wt = "Polyline" then ["    border-color: " ++ fg]
         else ["    foreground: " ++ fg]
       else []
     | none => []
   else []) ++
  (if colorTruthy w.background_color then
     match get_color_reference st w.background_color color_table with
     | some bg =>
       if bg ≠ "" ∧ wt ∉ shapesList then ["    background: " ++ bg] else []
     | none => []
   else [])

/-- `MedmToGestaltConverter.convert_widget_to_lines`, with explicit
recursion fuel (fuel `0` reports an error rather than recursing):
skip widgets completely outside the display area, skip widgets whose
symbol has no entry in `WIDGET_TYPE_MAP`, otherwise emit the name/type
line, geometry, colors and the widget-specific properties. -/
def convert_widget_to_lines :
    Nat → ConvState → Widget → Nat → List Color → Except String ConvResult
  | 0, _, _, _, _ => .error "recursion limit exceeded"
  | fuel + 1, st, w, i, color_table =>
    if outsideCanvas st w then .ok (st, [], w)
    else
      match lookupKV WIDGET_TYPE_MAP w.symbol with
      | none => .ok (st, [], w)
      | some widget_type =>
        let base := (widget_name_of w i ++ ": !" ++ widget_type) ::
          geometryLines w ++ genericColorLines widget_type w st color_table
        if w.contents.isEmpty then .ok (st, base, w)
        else
          add_widget_properties_lines (convert_widget_to_lines fuel)
            st w base widget_type color_table

/-! ### Document assembler (`convert_display`) -/

/-- The parsed root document handed over by the external structural
parser (spec §6): source file name, color table, overall geometry and
colors, and the ordered top-level widgets. -/
structure Medm where
  given_filename : String
  color_table : List Color
  geometry : Option Geometry
  color : Option ColorVal
  background_color : Option ColorVal
  widgets : List Widget

/-- Lines 159–172: the block emitted for one accumulated Calc node
(preceded by the blank line appended just before it). -/
def calcNodeBlock (ci : CalcInfo) : List String :=
  ["", ci.name ++ ": !Calc",
   "    calc: \"" ++ convert_medm_to_python ci.expression ++ "\"",
   "    A: \"" ++ ci.channel_a ++ "\""] ++
  (if ci.channel_b ≠ "" then ["    B: \"" ++ ci.channel_b ++ "\""] else []) ++
  (if ci.channel_c ≠ "" then ["    C: \"" ++ ci.channel_c ++ "\""] else []) ++
  (if ci.channel_d ≠ "" then ["    D: \"" ++ ci.channel_d ++ "\""] else []) ++
  ["    pv: \"" ++ ci.name ++ ".CALC\""]

/-- Lines 150–155: the loop converting the top-level widgets (non-empty
widget output is followed by a blank line). -/
def convertWidgetsLoop (fuel : Nat) (color_table : List Color) :
    ConvState → List Widget → Nat → Except String (ConvState × List String)
  | st, [], _ => .ok (st, [])
  | st, w :: rest, i => do
    let (st1, wl, _) ← convert_widget_to_lines fuel st w i color_table
    let cur := if wl.isEmpty then [] else wl ++ [""]
    let (st2, restL) ← convertWidgetsLoop fuel color_table st1 rest (i + 1)
    .ok (st2, cur ++ restL)

/-- `MedmToGestaltConverter.convert_display`: build the color maps,
set the display dimensions, then emit includes, header comments, the
custom color aliases, the `Form` block, every widget block and finally
the accumulated Calc node blocks, joined with newlines. -/
def convert_display (fuel : Nat) (st : ConvState) (medm : Medm) :
    Except String (ConvState × String) := do
  let st := build_color_map st medm.color_table
  let st := match medm.geometry with
    | some g => { st with display_width := some g.width,
                          display_height := some g.height }
    | none => { st with display_width := some 437,
                        display_height := some 274 }
  let header := ["#include colors.yml", "#include widgets.yml", "",
                 "# Gestalt display file generated from MEDM ADL",
                 "# Source: " ++ basenameOf medm.given_filename,
                 "# Generator: adl2gestalt", ""]
  let aliasL := if st.color_aliases.isEmpty then []
    else "" :: "# Custom colors from MEDM color table" ::
      st.color_aliases.map (fun p =>
        p.1 ++ ": &" ++ (⟨p.1.data.drop 1⟩ : String) ++ " " ++ p.2)
  let formL := ["Form: !Form"] ++
    (match medm.geometry with
     | some g => ["    geometry: " ++ intToStr g.width ++ "x" ++
                    intToStr g.height]
     | none => []) ++
    ["    margins: 10x0x10x10"] ++
    (if colorTruthy medm.color then
       match get_color_reference st medm.color medm.color_table with
       | some fg => if fg ≠ "" then ["    foreground: " ++ fg] else []
       | none => []
     else []) ++
    (if colorTruthy medm.background_color then
       match get_color_reference st medm.background_color medm.color_table with
       | some bg => if bg ≠ "" then ["    background: " ++ bg] else []
       | none => []
     else []) ++ [""]
  let (st, widgetL) ←
    convertWidgetsLoop fuel medm.color_table st medm.widgets 0
  let calcL := match st.calc_nodes with
    | some l => if l.isEmpty then [] else l.foldl (fun acc ci => acc ++ calcNodeBlock ci) []
    | none => []
  .ok (st, joinSep "\n" (header ++ aliasL ++ [""] ++ formL ++ widgetL ++ calcL))

/-! ### Predicates used to state the claims -/

/-- No uppercase ASCII letter occurs (rules out the placeholder
`___NE___` and every uppercase function name). -/
def noUpperL (s : List Char) : Bool :=
  s.all (fun c => !c.isUpper)

/-- The character `c` does not occur. -/
def noCharL (c : Char) (s : List Char) : Bool :=
  s.all (fun d => d != c)

/-- Every `!` is immediately followed by `=` and every `=` is
immediately preceded by `!`: all occurrences of these two characters
form `!=` tokens (in particular there is no bare `=` and no `==`). -/
def goodBE : List Char → Bool
  | [] => true
  | c :: r =>
    if c = '!' then
      match r with
      | [] => false
      | c2 :: r2 => if c2 = '=' then goodBE r2 else false
    else if c = '=' then false
    else goodBE r

/-- A string already in target syntax with no legacy tokens and no
equality operator: only `!=`, lowercase words (`and`, `or`, `not`,
qualified lowercase function names) and other lowercase text — no
uppercase letters, no `#`, no `&`, no `|`, and no `=` outside `!=`. -/
def targetSyntaxNoEq (s : String) : Bool :=
  noUpperL s.data && goodBE s.data && noCharL '#' s.data &&
  noCharL '&' s.data && noCharL '|' s.data

/-- No line of the output is a `background:` property line. -/
def noBackgroundLine (ls : List String) : Prop :=
  ∀ l ∈ ls, startsL "    background: ".data l.data = false

/-! ### Concrete fixtures for counterexamples and witnesses -/

/-- A rectangle whose dynamic attribute requests "calc" visibility with
expression `A#0` on channel `PV:A`. -/
def wCalc : Widget :=
  .mk "rectangle" none (some ⟨0, 0, 10, 10⟩) none none
    [("dynamic attribute",
      .dct [("vis", "calc"), ("chan", "PV:A"), ("calc", "A#0")])]
    none none none none

/-- Document A: one calc-visibility widget. -/
def docA : Medm :=
  ⟨"a.adl", [], some ⟨0, 0, 100, 100⟩, none, none, [wCalc]⟩

/-- Document B: no widgets at all. -/
def docB : Medm :=
  ⟨"b.adl", [], some ⟨0, 0, 100, 100⟩, none, none, []⟩

/-- A byte monitor whose `sbit` field is not a number. -/
def wByte : Widget :=
  .mk "byte" none (some ⟨0, 0, 10, 10⟩) none none
    [("sbit", .str "x")] none none none none

/-- A widget completely left of the canvas (x = −50, width 20). -/
def wOut : Widget :=
  .mk "rectangle" none (some ⟨-50, 10, 20, 20⟩) none none []
    none none none none

/-- A text widget used to exhibit the name/type line. -/
def wTxt : Widget :=
  .mk "text" (some "Hi") (some ⟨0, 0, 10, 10⟩) none none []
    none none none none

/-- The one-entry color table of the `C6` fixtures. -/
def ctC6 : List Color := [⟨1, 2, 3⟩]

/-- Converter state after resolving `ctC6`. -/
def stC6 : ConvState := build_color_map initState ctC6

/-- A polyline with both a foreground and a background color set. -/
def wPoly : Widget :=
  .mk "polyline" none (some ⟨0, 0, 10, 10⟩)
    (some (.rgb ⟨1, 2, 3⟩)) (some (.rgb ⟨1, 2, 3⟩)) []
    none none none none

/-- A polyline with only a foreground color. -/
def wPolyFg : Widget :=
  .mk "polyline" none (some ⟨0, 0, 10, 10⟩)
    (some (.rgb ⟨1, 2, 3⟩)) none []
    none none none none

/-- An outlined rectangle with a foreground color. -/
def wRectOutline : Widget :=
  .mk "rectangle" none (some ⟨0, 0, 10, 10⟩)
    (some (.rgb ⟨1, 2, 3⟩)) none
    [("basic attribute", .dct [("fill", "outline")])]
    none none none none

/-- A filled rectangle with a foreground color. -/
def wRectFilled : Widget :=
  .mk "rectangle" none (some ⟨0, 0, 10, 10⟩)
    (some (.rgb ⟨1, 2, 3⟩)) none
    [("basic attribute", .dct [])]
    none none none none

/-- A shell command widget whose labels carry the legacy leading `-`. -/
def wSC : Widget :=
  .mk "shell command" none (some ⟨0, 0, 10, 10⟩) none none
    [("label", .str "-Run")] none
    (some [[("name", "ls"), ("label", "-L")]]) none none

/-- A related display widget whose labels carry the legacy leading `-`. -/
def wRD : Widget :=
  .mk "related display" none (some ⟨0, 0, 10, 10⟩) none none
    [("label", .str "-Files")]
    (some [[("name", "sub.adl"), ("label", "-Sub")]]) none none none

/-- A child widget at absolute position (110, 60). -/
def wChild : Widget :=
  .mk "rectangle" none (some ⟨110, 60, 20, 20⟩) none none []
    none none none none

/-- A composite (group) widget at absolute position (100, 50)
containing `wChild`. -/
def wG : Widget :=
  .mk "composite" none (some ⟨100, 50, 50, 50⟩) none none
    [("dummy", .str "y")] none none none (some [wChild])

/-- The color table of the `C7` witness. -/
def ctC7 : List Color := [⟨255, 255, 255⟩, ⟨10, 20, 30⟩]

/-- A never-recursing stand-in for the dispatcher, used to instantiate
theorems about `add_widget_properties_lines` on widgets without
children. -/
def recurseNone : ConvState → Widget → Nat → List Color → Except String ConvResult :=
  fun _ _ _ _ => .error "no recursion"

/-! ## Theorems

First the machinery about the string-replacement primitive, then the
claims C1–C10. -/

theorem startsL_mem_subset :
    ∀ (pat s : List Char), startsL pat s = true → ∀ ch ∈ pat, ch ∈ s := by
  intro pat
  induction pat with
  | nil => intro s _ ch hch; cases hch
  | cons p ps ih =>
    intro s hst ch hch
    cases s with
    | nil => simp [startsL] at hst
    | cons c cs =>
      simp only [startsL, Bool.and_eq_true, beq_iff_eq] at hst
      rcases hch with _ | hch
      · exact hst.1 ▸ List.mem_cons_self c cs
      · exact List.mem_cons_of_mem c (ih cs hst.2 ch (by assumption))

theorem startsL_self_append (p t : List Char) : startsL p (p ++ t) = true := by
  induction p with
  | nil => rfl
  | cons c cs ih => simp [startsL, ih]

theorem replaceFuel_congr (pat repl : List Char) :
    ∀ (f g : Nat) (s : List Char), s.length ≤ f → s.length ≤ g →
      replaceFuel pat repl f s = replaceFuel pat repl g s := by
  intro f
  induction f with
  | zero =>
    intro g s hf _
    cases s with
    | nil => cases g <;> rfl
    | cons c rest => simp at hf
  | succ f ih =>
    intro g s hf hg
    cases s with
    | nil => cases g <;> rfl
    | cons c rest =>
      cases g with
      | zero => simp at hg
      | succ g =>
        simp only [replaceFuel]
        by_cases hcond : (!pat.isEmpty && startsL pat (c :: rest)) = true
        · simp only [hcond, if_true]
          have hdl : (rest.drop (pat.length - 1)).length ≤ rest.length := by
            simp [List.length_drop]
          congr 1
          exact ih g _ (by simp at hf; omega) (by simp at hg; omega)
        · simp only [Bool.not_eq_true] at hcond
          simp only [hcond, Bool.false_eq_true, if_false]
          congr 1
          exact ih g rest (by simp at hf; omega) (by simp at hg; omega)

theorem replaceL_pos (pat repl : List Char) (c : Char) (rest : List Char)
    (hne : pat.isEmpty = false) (hst : startsL pat (c :: rest) = true) :
    replaceL pat repl (c :: rest) =
      repl ++ replaceL pat repl (rest.drop (pat.length - 1)) := by
  unfold replaceL
  have h1 : (c :: rest).length = rest.length + 1 := rfl
  rw [h1]
  simp only [replaceFuel, hne, hst, Bool.not_false, Bool.and_self, if_true]
  congr 1
  exact replaceFuel_congr pat repl rest.length _ _ (by simp [List.length_drop]) le_rfl

theorem replaceL_neg (pat repl : List Char) (c : Char) (rest : List Char)
    (h : (!pat.isEmpty && startsL pat (c :: rest)) = false) :
    replaceL pat repl (c :: rest) = c :: replaceL pat repl rest := by
  unfold replaceL
  have h1 : (c :: rest).length = rest.length + 1 := rfl
  rw [h1]
  simp only [replaceFuel, h, Bool.false_eq_true, if_false]

theorem replaceL_noop (pat repl : List Char) (ch : Char) (hch : ch ∈ pat) :
    ∀ (f : Nat) (s : List Char), ch ∉ s → replaceFuel pat repl f s = s := by
  intro f
  induction f with
  | zero => intro s _; cases s <;> rfl
  | succ f ih =>
    intro s hs
    cases s with
    | nil => rfl
    | cons c rest =>
      have hst : startsL pat (c :: rest) = false := by
        cases hx : startsL pat (c :: rest)
        · rfl
        · exact absurd (startsL_mem_subset pat _ hx ch hch) hs
      simp only [replaceFuel, hst, Bool.and_false, Bool.false_eq_true, if_false]
      congr 1
      exact ih rest (fun hmem => hs (List.mem_cons_of_mem c hmem))

theorem replaceL_noop_of_noChar (pat repl : List Char) (ch : Char)
    (hch : ch ∈ pat) (s : List Char) (hs : noCharL ch s = true) :
    replaceL pat repl s = s := by
  apply replaceL_noop pat repl ch hch
  intro hmem
  simp only [noCharL, List.all_eq_true] at hs
  have := hs ch hmem
  simp at this

theorem goodBE_bang {rest : List Char} (h : goodBE ('!' :: rest) = true) :
    ∃ r2, rest = '=' :: r2 ∧ goodBE r2 = true := by
  cases rest with
  | nil => simp [goodBE] at h
  | cons c2 r2 =>
    by_cases hc2 : c2 = '='
    · subst hc2
      refine ⟨r2, rfl, ?_⟩
      simpa [goodBE] using h
    · simp [goodBE, hc2] at h

theorem goodBE_eq_false (rest : List Char) : goodBE ('=' :: rest) = false := by
  cases rest <;> rfl

theorem goodBE_other {c : Char} (rest : List Char) (h1 : c ≠ '!') (h2 : c ≠ '=') :
    goodBE (c :: rest) = goodBE rest := by
  cases rest <;> simp [goodBE, h1, h2]

theorem mask_bang (r2 : List Char) :
    replaceL "!=".data "___NE___".data ('!' :: '=' :: r2) =
      "___NE___".data ++ replaceL "!=".data "___NE___".data r2 := by
  have hst : startsL "!=".data ('!' :: '=' :: r2) = true := by
    simp [startsL]
  simpa using replaceL_pos "!=".data "___NE___".data '!' ('=' :: r2) rfl hst

theorem mask_other {c : Char} (rest : List Char) (h1 : c ≠ '!') :
    replaceL "!=".data "___NE___".data (c :: rest) =
      c :: replaceL "!=".data "___NE___".data rest := by
  apply replaceL_neg
  have : ('!' == c) = false := by
    simp [beq_eq_false_iff_ne, Ne.symm h1]
  simp [startsL, this]

theorem mask_no_bang_eq :
    ∀ (n : Nat) (t : List Char), t.length ≤ n → goodBE t = true →
      '!' ∉ replaceL "!=".data "___NE___".data t ∧
      '=' ∉ replaceL "!=".data "___NE___".data t := by
  intro n
  induction n with
  | zero =>
    intro t ht _
    have : t = [] := List.eq_nil_of_length_eq_zero (Nat.le_zero.mp ht)
    subst this
    simp [replaceL, replaceFuel]
  | succ n ih =>
    intro t ht hg
    cases t with
    | nil => simp [replaceL, replaceFuel]
    | cons c rest =>
      by_cases hc : c = '!'
      · subst hc
        obtain ⟨r2, hrest, hgr⟩ := goodBE_bang hg
        subst hrest
        rw [mask_bang]
        have hr := ih r2 (by simp at ht; omega) hgr
        constructor <;> intro hmem <;> rcases List.mem_append.mp hmem with hin | hin
        · exact absurd hin (by decide)
        · exact hr.1 hin
        · exact absurd hin (by decide)
        · exact hr.2 hin
      · by_cases hce : c = '='
        · subst hce
          rw [goodBE_eq_false] at hg
          cases hg
        · rw [mask_other rest hc]
          have hgr : goodBE rest = true := (goodBE_other rest hc hce) ▸ hg
          have hr := ih rest (by simp at ht; omega) hgr
          constructor <;> intro hmem <;> rcases List.mem_cons.mp hmem with hin | hin
          · exact hc hin.symm
          · exact hr.1 hin
          · exact hce hin.symm
          · exact hr.2 hin

theorem noUpperL_cons {c : Char} {rest : List Char}
    (h : noUpperL (c :: rest) = true) :
    c.isUpper = false ∧ noUpperL rest = true := by
  simp only [noUpperL, List.all_cons, Bool.and_eq_true, Bool.not_eq_true'] at h
  exact ⟨h.1, h.2⟩

theorem spur_aux :
    ∀ (n : Nat) (t : List Char), t.length ≤ n → noUpperL t = true →
      goodBE t = true →
      startsL "__NE___".data (replaceL "!=".data "___NE___".data t) = false ∧
      startsL "_NE___".data (replaceL "!=".data "___NE___".data t) = false ∧
      startsL "NE___".data (replaceL "!=".data "___NE___".data t) = false := by
  intro n
  induction n with
  | zero =>
    intro t ht _ _
    have : t = [] := List.eq_nil_of_length_eq_zero (Nat.le_zero.mp ht)
    subst this
    exact ⟨rfl, rfl, rfl⟩
  | succ n ih =>
    intro t ht hU hg
    cases t with
    | nil => exact ⟨rfl, rfl, rfl⟩
    | cons c rest =>
      obtain ⟨hcu, hUr⟩ := noUpperL_cons hU
      by_cases hc : c = '!'
      · subst hc
        obtain ⟨r2, hrest, hgr⟩ := goodBE_bang hg
        subst hrest
        rw [mask_bang]
        exact ⟨rfl, rfl, rfl⟩
      · by_cases hce : c = '='
        · subst hce
          rw [goodBE_eq_false] at hg
          cases hg
        · rw [mask_other rest hc]
          have hgr : goodBE rest = true := (goodBE_other rest hc hce) ▸ hg
          have ihr := ih rest (by simp at ht; omega) hUr hgr
          refine ⟨?_, ?_, ?_⟩
          · rw [show ("__NE___".data = '_' :: "_NE___".data) from rfl]
            simp only [startsL]
            by_cases hcu2 : c = '_'
            · subst hcu2
              simpa using ihr.2.1
            · rw [show (('_' == c) = false) from
                beq_eq_false_iff_ne.mpr (Ne.symm hcu2)]
              simp
          · rw [show ("_NE___".data = '_' :: "NE___".data) from rfl]
            simp only [startsL]
            by_cases hcu2 : c = '_'
            · subst hcu2
              simpa using ihr.2.2
            · rw [show (('_' == c) = false) from
                beq_eq_false_iff_ne.mpr (Ne.symm hcu2)]
              simp
          · rw [show ("NE___".data = 'N' :: "E___".data) from rfl]
            simp only [startsL]
            have hcN : c ≠ 'N' := by
              intro h
              subst h
              simp at hcu
            rw [show (('N' == c) = false) from
              beq_eq_false_iff_ne.mpr (Ne.symm hcN)]
            simp

theorem mask_unmask :
    ∀ (n : Nat) (s : List Char), s.length ≤ n → noUpperL s = true →
      goodBE s = true →
      replaceL "___NE___".data "!=".data
        (replaceL "!=".data "___NE___".data s) = s := by
  intro n
  induction n with
  | zero =>
    intro s hs _ _
    have : s = [] := List.eq_nil_of_length_eq_zero (Nat.le_zero.mp hs)
    subst this
    rfl
  | succ n ih =>
    intro s hs hU hg
    cases s with
    | nil => rfl
    | cons c rest =>
      obtain ⟨hcu, hUr⟩ := noUpperL_cons hU
      by_cases hc : c = '!'
      · subst hc
        obtain ⟨r2, hrest, hgr⟩ := goodBE_bang hg
        subst hrest
        rw [mask_bang]
        have hUr2 : noUpperL r2 = true := (noUpperL_cons hUr).2
        have hx : "___NE___".data ++ replaceL "!=".data "___NE___".data r2 =
            '_' :: ("__NE___".data ++ replaceL "!=".data "___NE___".data r2) := rfl
        rw [hx, replaceL_pos "___NE___".data "!=".data '_'
          ("__NE___".data ++ replaceL "!=".data "___NE___".data r2) rfl
          (startsL_self_append "___NE___".data
            (replaceL "!=".data "___NE___".data r2))]
        have hdrop : ("__NE___".data ++
            replaceL "!=".data "___NE___".data r2).drop
              ("___NE___".data.length - 1) =
            replaceL "!=".data "___NE___".data r2 := by
          rw [show ("___NE___".data.length - 1 = "__NE___".data.length) from rfl]
          exact List.drop_left _ _
        rw [hdrop, ih r2 (by simp at hs; omega) hUr2 hgr]
        rfl
      · by_cases hce : c = '='
        · subst hce
          rw [goodBE_eq_false] at hg
          cases hg
        · rw [mask_other rest hc]
          have hgr : goodBE rest = true := (goodBE_other rest hc hce) ▸ hg
          have hneg : (!("___NE___".data.isEmpty) &&
              startsL "___NE___".data
                (c :: replaceL "!=".data "___NE___".data rest)) = false := by
            rw [show ("___NE___".data = '_' :: "__NE___".data) from rfl]
            simp only [startsL]
            by_cases hcu2 : c = '_'
            · subst hcu2
              have := (spur_aux n rest (by simp at hs; omega) hUr hgr).1
              simp [this]
            · rw [show (('_' == c) = false) from
                beq_eq_false_iff_ne.mpr (Ne.symm hcu2)]
              simp
          rw [replaceL_neg _ _ _ _ hneg,
            ih rest (by simp at hs; omega) hUr hgr]

theorem stringDataEq (a b : String) (h : a.data = b.data) : a = b := by
  cases a
  cases b
  cases h
  rfl

theorem foldl_pyReplace_noop (l : List (String × String)) (s : String)
    (hU : noUpperL s.data = true)
    (hl : ∀ kv ∈ l, kv.1.data.any (fun c => c.isUpper) = true) :
    l.foldl (fun acc kv => pyReplace acc kv.1 kv.2) s = s := by
  induction l with
  | nil => rfl
  | cons kv rest ih =>
    rw [List.foldl_cons]
    have hk := hl kv (List.mem_cons_self _ _)
    rw [List.any_eq_true] at hk
    obtain ⟨ch, hch, hup⟩ := hk
    have hnoop : pyReplace s kv.1 kv.2 = s := by
      apply stringDataEq
      apply replaceL_noop kv.1.data kv.2.data ch hch
      intro hmem
      simp only [noUpperL, List.all_eq_true] at hU
      have h2 := hU ch hmem
      rw [hup] at h2
      simp at h2
    rw [hnoop]
    exact ih (fun kv hkv => hl kv (List.mem_cons_of_mem _ hkv))

/-- Claim C3 (amended): the expression compiler is idempotent on input
already in target syntax that contains no legacy token and no equality
operator — every string built from `!=`, `and`, `or`, `not` and
lowercase qualified function names (no uppercase letter, no `#`, `&`,
`|`, and no `=` outside a `!=` token) is returned unchanged.  (The
original claim also admitted `==`, on which the compiler is not
idempotent — see the counterexample.) -/
theorem c3_idempotent_on_target_syntax (s : String)
    (h : targetSyntaxNoEq s = true) :
    convert_medm_to_python s = s := by
  have h' := h
  simp only [targetSyntaxNoEq, Bool.and_eq_true] at h'
  obtain ⟨⟨⟨⟨hU, hBE⟩, hHash⟩, hAmp⟩, hPipe⟩ := h'
  by_cases hs0 : s = ""
  · simp [convert_medm_to_python, hs0]
  · simp only [convert_medm_to_python, if_neg hs0]
    have e1 : pyReplace s "#" "!=" = s :=
      stringDataEq _ _ (replaceL_noop_of_noChar _ _ '#' (by decide) _ hHash)
    rw [e1]
    have hmaskNB :=
      mask_no_bang_eq s.data.length s.data le_rfl hBE
    have e3 : pyReplace (pyReplace s "!=" "___NE___") "=" "==" =
        pyReplace s "!=" "___NE___" :=
      stringDataEq _ _ (replaceL_noop "=".data "==".data '=' (by decide) _ _
        hmaskNB.2)
    rw [e3]
    have e4 : pyReplace (pyReplace s "!=" "___NE___") " !" " not " =
        pyReplace s "!=" "___NE___" :=
      stringDataEq _ _ (replaceL_noop " !".data " not ".data '!' (by decide) _ _
        hmaskNB.1)
    rw [e4]
    have e5 : pyReplace (pyReplace s "!=" "___NE___") "! " " not " =
        pyReplace s "!=" "___NE___" :=
      stringDataEq _ _ (replaceL_noop "! ".data " not ".data '!' (by decide) _ _
        hmaskNB.1)
    rw [e5]
    have e6 : pyReplace (pyReplace s "!=" "___NE___") "!" " not " =
        pyReplace s "!=" "___NE___" :=
      stringDataEq _ _ (replaceL_noop "!".data " not ".data '!' (by decide) _ _
        hmaskNB.1)
    rw [e6]
    have e7 : pyReplace (pyReplace s "!=" "___NE___") "___NE___" "!=" = s :=
      stringDataEq _ _ (mask_unmask s.data.length s.data le_rfl hU hBE)
    rw [e7]
    have e8 : pyReplace s "&&" " and " = s :=
      stringDataEq _ _ (replaceL_noop_of_noChar _ _ '&' (by decide) _ hAmp)
    rw [e8]
    have e9 : pyReplace s "||" " or " = s :=
      stringDataEq _ _ (replaceL_noop_of_noChar _ _ '|' (by decide) _ hPipe)
    rw [e9]
    exact foldl_pyReplace_noop function_mappings s hU (by decide)

/-- Claim C3, counterexample: `"a==b"` is already in target syntax and
contains no legacy token, yet the compiler doubles the `==` (the bare
`=` → `==` rewrite fires on each of its characters), returning
`"a====b"`. -/
theorem c3_counterexample :
    convert_medm_to_python "a==b" = "a====b" ∧
    convert_medm_to_python "a==b" ≠ "a==b" := by
  constructor
  · decide
  · decide

/-- Claim C3, witness: a target-syntax string with `!=`, `and`, `not`
and a qualified lowercase function name passes through unchanged. -/
theorem c3_witness :
    targetSyntaxNoEq "a!=b and not math.sqrt(c)" = true ∧
    convert_medm_to_python "a!=b and not math.sqrt(c)" =
      "a!=b and not math.sqrt(c)" :=
  ⟨by decide, c3_idempotent_on_target_syntax _ (by decide)⟩

/-- Claim C2 (code-bug evidence): the function-name loop replaces the
table keys in insertion order, so `LOG` fires inside `LOGE` and `SIN`
fires inside `ASIN`, producing `math.log10E(a)` and `Amath.sin(a)`
instead of the documented `math.log(a)` / `math.asin(a)`; a
non-overlapping name such as `SQR` is translated correctly. -/
theorem c2_function_rewrite_eval :
    convert_medm_to_python "LOGE(a)" = "math.log10E(a)" ∧
    convert_medm_to_python "ASIN(a)" = "Amath.sin(a)" ∧
    convert_medm_to_python "SQR(a)" = "math.sqrt(a)" := by
  refine ⟨by decide, by decide, by decide⟩

/-- Claim C8: the re-basing operation used during group flattening
produces `(x − x₀, y − y₀, w, h)`, preserves width and height, and
re-basing the result by `(−x₀, −y₀)` returns the original geometry. -/
theorem c8_rebase_additive_reversible (g : Geometry) (x0 y0 : Int) :
    rebaseGeometry g x0 y0 =
      { x := g.x - x0, y := g.y - y0, width := g.width, height := g.height } ∧
    (rebaseGeometry g x0 y0).width = g.width ∧
    (rebaseGeometry g x0 y0).height = g.height ∧
    rebaseGeometry (rebaseGeometry g x0 y0) (-x0) (-y0) = g := by
  refine ⟨rfl, rfl, rfl, ?_⟩
  cases g with
  | mk x y w h =>
    simp only [rebaseGeometry]
    rw [Geometry.mk.injEq]
    refine ⟨by omega, by omega, rfl, rfl⟩

theorem natDigsAux_lt10 :
    ∀ (f n : Nat) (d : Nat), d ∈ natDigsAux f n → d < 10 := by
  intro f
  induction f with
  | zero =>
    intro n d hd
    cases n <;> cases hd
  | succ f ih =>
    intro n d hd
    cases n with
    | zero => cases hd
    | succ m =>
      simp only [natDigsAux] at hd
      rcases List.mem_cons.mp hd with h | h
      · subst h
        exact Nat.mod_lt _ (by omega)
      · exact ih _ d h

theorem ofRevDigits_natDigsAux :
    ∀ (f n : Nat), n ≤ f → ofRevDigits (natDigsAux f n) = n := by
  intro f
  induction f with
  | zero =>
    intro n hn
    interval_cases n
    rfl
  | succ f ih =>
    intro n hn
    cases n with
    | zero => rfl
    | succ m =>
      simp only [natDigsAux, ofRevDigits]
      rw [ih ((m + 1) / 10) (by
        have := Nat.div_lt_self (by omega : 0 < m + 1) (by omega : 1 < 10)
        omega)]
      omega

theorem mapDigits_inj :
    ∀ (l1 l2 : List Nat), (∀ d ∈ l1, d < 10) → (∀ d ∈ l2, d < 10) →
      l1.map (fun d => Char.ofNat (48 + d)) =
        l2.map (fun d => Char.ofNat (48 + d)) → l1 = l2 := by
  have key : ∀ d1, d1 < 10 → ∀ d2, d2 < 10 →
      Char.ofNat (48 + d1) = Char.ofNat (48 + d2) → d1 = d2 := by decide
  intro l1
  induction l1 with
  | nil =>
    intro l2 _ _ h
    cases l2 with
    | nil => rfl
    | cons d r => simp at h
  | cons d1 r1 ih =>
    intro l2 h1 h2 h
    cases l2 with
    | nil => simp at h
    | cons d2 r2 =>
      simp only [List.map_cons, List.cons.injEq] at h
      have hd := key d1 (h1 d1 (List.mem_cons_self _ _)) d2
        (h2 d2 (List.mem_cons_self _ _)) h.1
      subst hd
      rw [ih r2 (fun d hd => h1 d (List.mem_cons_of_mem _ hd))
        (fun d hd => h2 d (List.mem_cons_of_mem _ hd)) h.2]

theorem natToStr_injective :
    ∀ (m n : Nat), natToStr m = natToStr n → m = n := by
  have zeroCase : ∀ n, n ≠ 0 → natToStr n ≠ "0" := by
    intro n hn h
    simp only [natToStr, if_neg hn] at h
    have hdata : ((natDigsAux n n).reverse.map
        (fun d => Char.ofNat (48 + d))) = ['0'] := congrArg String.data h
    have : (natDigsAux n n).reverse = [0] := by
      apply mapDigits_inj _ [0]
      · intro d hd
        exact natDigsAux_lt10 n n d (List.mem_reverse.mp hd)
      · intro d hd
        simp at hd
        omega
      · simpa using hdata
    have hrev : natDigsAux n n = [0] := by
      have := congrArg List.reverse this
      simpa using this
    have := ofRevDigits_natDigsAux n n le_rfl
    rw [hrev] at this
    simp [ofRevDigits] at this
    exact hn this.symm
  intro m n h
  by_cases hm : m = 0 <;> by_cases hn : n = 0
  · omega
  · subst hm
    simp only [natToStr, if_pos rfl] at h
    exact absurd h.symm (zeroCase n hn)
  · subst hn
    simp only [natToStr, if_pos rfl] at h
    exact absurd h (zeroCase m hm)
  · simp only [natToStr, if_neg hm, if_neg hn] at h
    have hdata := congrArg String.data h
    simp only [] at hdata
    have hrev : (natDigsAux m m).reverse = (natDigsAux n n).reverse := by
      apply mapDigits_inj
      · intro d hd
        exact natDigsAux_lt10 m m d (List.mem_reverse.mp hd)
      · intro d hd
        exact natDigsAux_lt10 n n d (List.mem_reverse.mp hd)
      · exact hdata
    have hdig : natDigsAux m m = natDigsAux n n := by
      have := congrArg List.reverse hrev
      simpa using this
    have h1 := ofRevDigits_natDigsAux m m le_rfl
    have h2 := ofRevDigits_natDigsAux n n le_rfl
    rw [hdig] at h1
    omega

theorem aliasName_inj {i j : Nat} (h : aliasName i = aliasName j) : i = j := by
  apply natToStr_injective
  apply stringDataEq
  have hdata := congrArg String.data h
  simp only [aliasName] at hdata
  have : "medm_color_".data ++ (natToStr i).data =
      "medm_color_".data ++ (natToStr j).data := by
    have e1 : ("medm_color_" ++ natToStr i).data =
        "medm_color_".data ++ (natToStr i).data := by
      cases hi : natToStr i
      rfl
    have e2 : ("medm_color_" ++ natToStr j).data =
        "medm_color_".data ++ (natToStr j).data := by
      cases hj : natToStr j
      rfl
    rw [← e1, ← e2, hdata]
  exact List.append_cancel_left this

theorem aliasKey_inj {i j : Nat}
    (h : ("_" ++ aliasName i) = ("_" ++ aliasName j)) : i = j := by
  apply aliasName_inj
  apply stringDataEq
  have hdata := congrArg String.data h
  have e1 : ("_" ++ aliasName i).data = "_".data ++ (aliasName i).data := by
    cases hi : aliasName i
    rfl
  have e2 : ("_" ++ aliasName j).data = "_".data ++ (aliasName j).data := by
    cases hj : aliasName j
    rfl
  rw [e1, e2] at hdata
  exact List.append_cancel_left hdata

theorem bcm_alias_keys (ct : List Color) :
    ∀ (k : Nat), ∀ p ∈ (build_color_map_entries k ct).2,
      ∃ i', k ≤ i' ∧ p.1 = "_" ++ aliasName i' := by
  induction ct with
  | nil =>
    intro k p hp
    simp [build_color_map_entries] at hp
  | cons c0 rest ih =>
    intro k p hp
    simp only [build_color_map_entries] at hp
    by_cases hstd : c0 ∈ standard_colors
    · rw [if_pos hstd] at hp
      obtain ⟨i', hi1, hi2⟩ := ih (k + 1) p hp
      exact ⟨i', by omega, hi2⟩
    · rw [if_neg hstd] at hp
      rcases List.mem_cons.mp hp with h | h
      · exact ⟨k, le_rfl, by rw [h]⟩
      · obtain ⟨i', hi1, hi2⟩ := ih (k + 1) p h
        exact ⟨i', by omega, hi2⟩

theorem bcm_filter_none (ct : List Color) :
    ∀ (k j : Nat), j < k →
      (build_color_map_entries k ct).2.filter
        (fun p => p.1 == "_" ++ aliasName j) = [] := by
  intro k j hjk
  rw [List.filter_eq_nil_iff]
  intro p hp
  obtain ⟨i', hi1, hi2⟩ := bcm_alias_keys ct k p hp
  simp only [hi2, beq_iff_eq]
  intro hcontra
  have := aliasKey_inj hcontra
  omega

theorem bcm_lookup (ct : List Color) :
    ∀ (k j : Nat) (c : Color), ct.get? j = some c →
      (lookupKV (build_color_map_entries k ct).1 (k + j) =
         some (if c ∈ standard_colors then color_hex c
               else "*" ++ aliasName (k + j))) ∧
      ((build_color_map_entries k ct).2.filter
          (fun p => p.1 == "_" ++ aliasName (k + j)) =
        (if c ∈ standard_colors then []
         else [("_" ++ aliasName (k + j), color_hex c)])) := by
  induction ct with
  | nil =>
    intro k j c hj
    simp at hj
  | cons c0 rest ih =>
    intro k j c hj
    cases j with
    | zero =>
      simp only [List.get?] at hj
      have hc : c0 = c := by simpa using hj
      rw [hc]
      simp only [Nat.add_zero]
      simp only [build_color_map_entries]
      by_cases hstd : c ∈ standard_colors
      · rw [if_pos hstd, if_pos hstd, if_pos hstd]
        constructor
        · simp [lookupKV]
        · exact bcm_filter_none rest (k + 1) k (by omega)
      · rw [if_neg hstd, if_neg hstd, if_neg hstd]
        constructor
        · simp [lookupKV]
        · rw [List.filter_cons]
          simp only [beq_self_eq_true, if_true]
          rw [bcm_filter_none rest (k + 1) k (by omega)]
    | succ j' =>
      simp only [List.get?] at hj
      have harith : k + (j' + 1) = (k + 1) + j' := by omega
      have hrec := ih (k + 1) j' c hj
      simp only [build_color_map_entries]
      by_cases hstd0 : c0 ∈ standard_colors
      · rw [if_pos hstd0]
        constructor
        · simp only [lookupKV]
          rw [if_neg (by omega)]
          rw [harith]
          exact hrec.1
        · rw [harith]
          exact hrec.2
      · rw [if_neg hstd0]
        constructor
        · simp only [lookupKV]
          rw [if_neg (by omega)]
          rw [harith]
          exact hrec.1
        · rw [List.filter_cons]
          have hne : (("_" ++ aliasName k) == "_" ++ aliasName (k + (j' + 1))) =
              false := by
            rw [beq_eq_false_iff_ne]
            intro hcontra
            have := aliasKey_inj hcontra
            omega
          simp only [hne, Bool.false_eq_true, if_false]
          rw [harith]
          exact hrec.2

theorem lookupKV_none_of_filter {α : Type} (l : List (String × α)) (key : String)
    (h : l.filter (fun p => p.1 == key) = []) : lookupKV l key = none := by
  induction l with
  | nil => rfl
  | cons p rest ih =>
    rw [List.filter_cons] at h
    by_cases hk : p.1 = key
    · simp [hk] at h
    · simp only [lookupKV, if_neg hk]
      apply ih
      have : (p.1 == key) = false := beq_eq_false_iff_ne.mpr hk
      simpa [this] using h

/-- Claim C7: the resolver maps every index holding one of the ten
well-known colors to a direct hex token with no alias entry for that
index; every other index gets exactly one alias entry, keyed
`_medm_color_<index>`, whose token `*medm_color_<index>` references it;
and distinct indices never share an alias name. -/
theorem c7_color_resolver (ct : List Color) (i : Nat) (c : Color)
    (hget : ct.get? i = some c) :
    (c ∈ standard_colors →
      lookupKV (build_color_map_entries 0 ct).1 i = some (color_hex c) ∧
      lookupKV (build_color_map_entries 0 ct).2 ("_" ++ aliasName i) = none) ∧
    (c ∉ standard_colors →
      lookupKV (build_color_map_entries 0 ct).1 i =
        some ("*" ++ aliasName i) ∧
      (build_color_map_entries 0 ct).2.filter
          (fun p => p.1 == "_" ++ aliasName i) =
        [("_" ++ aliasName i, color_hex c)]) ∧
    (∀ j, j ≠ i → aliasName j ≠ aliasName i) := by
  have hmain := bcm_lookup ct 0 i c hget
  rw [Nat.zero_add] at hmain
  refine ⟨?_, ?_, ?_⟩
  · intro hstd
    simp only [if_pos hstd] at hmain
    exact ⟨hmain.1, lookupKV_none_of_filter _ _ hmain.2⟩
  · intro hstd
    simp only [if_neg hstd] at hmain
    exact ⟨hmain.1, hmain.2⟩
  · intro j hji hcontra
    exact hji (aliasName_inj hcontra)

/-- Claim C7, witness: on the table `[white, (10,20,30)]` index 0 is
well-known (direct hex `$ffffff`, no alias) and index 1 gets the alias
`medm_color_1` with hex `$0a141e`. -/
theorem c7_witness :
    lookupKV (build_color_map_entries 0 ctC7).1 0 = some "$ffffff" ∧
    lookupKV (build_color_map_entries 0 ctC7).2 ("_" ++ aliasName 0) = none ∧
    lookupKV (build_color_map_entries 0 ctC7).1 1 = some ("*" ++ aliasName 1) ∧
    (build_color_map_entries 0 ctC7).2.filter
        (fun p => p.1 == "_" ++ aliasName 1) =
      [("_" ++ aliasName 1, "$0a141e")] := by
  have h0 := c7_color_resolver ctC7 0 ⟨255, 255, 255⟩ (by decide)
  have h1 := c7_color_resolver ctC7 1 ⟨10, 20, 30⟩ (by decide)
  have h0s := h0.1 (by decide)
  have h1s := h1.2.1 (by decide)
  refine ⟨?_, h0s.2, h1s.1, ?_⟩
  · rw [h0s.1]
    decide
  · rw [h1s.2]
    decide

theorem withGeometry_restore {child : Widget} {g : Geometry}
    (hg : child.geometry = some g) (w2 : Option Geometry) :
    (child.withGeometry w2).withGeometry (some g) = child := by
  cases child with
  | mk s t g0 c b co d cm p wdg =>
    simp only [Widget.geometry] at hg
    simp [Widget.withGeometry, hg]

theorem withWidgets_restore {w : Widget} {ws : List Widget}
    (hws : w.widgets = some ws) : w.withWidgets (some ws) = w := by
  cases w with
  | mk s t g0 c b co d cm p wdg =>
    simp only [Widget.widgets] at hws
    simp [Widget.withWidgets, hws]

theorem processChildren_keeps
    (recurse : ConvState → Widget → Nat → List Color → Except String ConvResult)
    (hrec : ∀ st w i ct, (recurse st w i ct).map (fun r => (r.1, r.2.1, w)) =
      recurse st w i ct) :
    ∀ (ws : List Widget) (st : ConvState) (gx gy : Int) (i : Nat)
      (ct : List Color),
      (processChildren recurse st gx gy i ct ws).map
          (fun r => (r.1, r.2.1, ws)) =
        processChildren recurse st gx gy i ct ws := by
  intro ws
  induction ws with
  | nil => intro st gx gy i ct; rfl
  | cons child rest ih =>
    intro st gx gy i ct
    simp only [processChildren]
    cases hg : child.geometry with
    | some g =>
      cases hr : recurse st
          (child.withGeometry (some (rebaseGeometry g gx gy))) i ct with
      | error e => simp [Bind.bind, Except.bind, Except.map, Pure.pure, Except.pure, hg, hr]
      | ok trip =>
        obtain ⟨st1, cl, cA⟩ := trip
        have hcA : child.withGeometry (some (rebaseGeometry g gx gy)) = cA := by
          have hkeep := hrec st
            (child.withGeometry (some (rebaseGeometry g gx gy))) i ct
          rw [hr] at hkeep
          simpa [Except.map] using hkeep
        subst hcA
        cases hrest : processChildren recurse st1 gx gy (i + 1) ct rest with
        | error e =>
          simp [Bind.bind, Except.bind, Except.map, Pure.pure, Except.pure, hg, hr, hrest]
        | ok trip2 =>
          obtain ⟨st2, restL, restDone⟩ := trip2
          have hrd : rest = restDone := by
            have hkeep2 := ih st1 gx gy (i + 1) ct
            rw [hrest] at hkeep2
            simpa [Except.map] using hkeep2
          subst hrd
          simp [Bind.bind, Except.bind, Except.map, Pure.pure, Except.pure, hg, hr, hrest,
            withGeometry_restore hg]
    | none =>
      cases hr : recurse st child i ct with
      | error e => simp [Bind.bind, Except.bind, Except.map, Pure.pure, Except.pure, hg, hr]
      | ok trip =>
        obtain ⟨st1, cl, cA⟩ := trip
        have hcA : child = cA := by
          have hkeep := hrec st child i ct
          rw [hr] at hkeep
          simpa [Except.map] using hkeep
        subst hcA
        cases hrest : processChildren recurse st1 gx gy (i + 1) ct rest with
        | error e =>
          simp [Bind.bind, Except.bind, Except.map, Pure.pure, Except.pure, hg, hr, hrest]
        | ok trip2 =>
          obtain ⟨st2, restL, restDone⟩ := trip2
          have hrd : rest = restDone := by
            have hkeep2 := ih st1 gx gy (i + 1) ct
            rw [hrest] at hkeep2
            simpa [Except.map] using hkeep2
          subst hrd
          simp [Bind.bind, Except.bind, Except.map, Pure.pure, Except.pure, hg, hr, hrest]

theorem groupSection_keeps
    (recurse : ConvState → Widget → Nat → List Color → Except String ConvResult)
    (hrec : ∀ st w i ct, (recurse st w i ct).map (fun r => (r.1, r.2.1, w)) =
      recurse st w i ct)
    (st : ConvState) (w : Widget) (wt : String) (ct : List Color) :
    (groupSection recurse st w wt ct).map (fun r => (r.1, r.2.1, w)) =
      groupSection recurse st w wt ct := by
  simp only [groupSection]
  by_cases hwt : wt = "Group"
  · rw [if_pos hwt]
    cases hws : w.widgets with
    | none => rfl
    | some ws =>
      by_cases hempty : ws.isEmpty
      · simp [hempty, Except.map]
      · simp only [hempty, Bool.false_eq_true, if_false]
        cases hpc : processChildren recurse st
            (match w.geometry with | some g => g.x | none => 0)
            (match w.geometry with | some g => g.y | none => 0) 0 ct ws with
        | error e => simp [Bind.bind, Except.bind, Except.map, Pure.pure, Except.pure, hpc]
        | ok trip =>
          obtain ⟨st2, cls, ws2⟩ := trip
          have hws2 : ws = ws2 := by
            have hkeep := processChildren_keeps recurse hrec ws st
              (match w.geometry with | some g => g.x | none => 0)
              (match w.geometry with | some g => g.y | none => 0) 0 ct
            rw [hpc] at hkeep
            simpa [Except.map] using hkeep
          subst hws2
          simp [Bind.bind, Except.bind, Except.map, Pure.pure, Except.pure, hpc,
            withWidgets_restore hws]
  · rw [if_neg hwt]
    rfl

theorem add_props_keeps
    (recurse : ConvState → Widget → Nat → List Color → Except String ConvResult)
    (hrec : ∀ st w i ct, (recurse st w i ct).map (fun r => (r.1, r.2.1, w)) =
      recurse st w i ct)
    (st : ConvState) (w : Widget) (lines : List String) (wt : String)
    (ct : List Color) :
    (add_widget_properties_lines recurse st w lines wt ct).map
        (fun r => (r.1, r.2.1, w)) =
      add_widget_properties_lines recurse st w lines wt ct := by
  simp only [add_widget_properties_lines]
  cases hb : byteMonitorLines wt w.contents w
      (visibilitySection st w.contents).1 ct with
  | error e => simp [Bind.bind, Except.bind, Except.map, Pure.pure, Except.pure, hb]
  | ok byteL =>
    cases ha : arcLines wt w.contents with
    | error e => simp [Bind.bind, Except.bind, Except.map, Pure.pure, Except.pure, hb, ha]
    | ok arcL =>
      cases hgrp : groupSection recurse (visibilitySection st w.contents).1
          w wt ct with
      | error e => simp [Bind.bind, Except.bind, Except.map, Pure.pure, Except.pure, hb, ha, hgrp]
      | ok gres =>
        obtain ⟨st2, grpL, w'⟩ := gres
        have hkeep := groupSection_keeps recurse hrec
          (visibilitySection st w.contents).1 w wt ct
        rw [hgrp] at hkeep
        have hw' : w = w' := by
          simpa [Except.map] using hkeep
        subst hw'
        simp [Bind.bind, Except.bind, Except.map, Pure.pure, Except.pure, hb, ha, hgrp]

/-- Claim C9: lowering a widget leaves the widget tree as it found it —
whatever the dispatcher returns, the widget component of the result is
the input widget (each group child's geometry is substituted only
transiently and restored before the recursive call returns). -/
theorem c9_group_geometry_restored :
    ∀ (fuel : Nat) (st : ConvState) (w : Widget) (i : Nat) (ct : List Color),
      (convert_widget_to_lines fuel st w i ct).map (fun r => (r.1, r.2.1, w)) =
        convert_widget_to_lines fuel st w i ct := by
  intro fuel
  induction fuel with
  | zero => intro st w i ct; rfl
  | succ f ih =>
    intro st w i ct
    simp only [convert_widget_to_lines]
    by_cases ho : outsideCanvas st w = true
    · simp [ho, Except.map]
    · simp only [Bool.not_eq_true] at ho
      simp only [ho, Bool.false_eq_true, if_false]
      cases hm : lookupKV WIDGET_TYPE_MAP w.symbol with
      | none => simp [Except.map]
      | some wt =>
        by_cases hc : w.contents.isEmpty
        · simp [hc, Except.map]
        · simp only [hc, Bool.false_eq_true, if_false]
          exact add_props_keeps (convert_widget_to_lines f) ih st w _ wt ct

theorem add_props_append
    (recurse : ConvState → Widget → Nat → List Color → Except String ConvResult)
    (st : ConvState) (w : Widget) (lines : List String) (wt : String)
    (ct : List Color) (st2 : ConvState) (ls : List String) (w2 : Widget)
    (h : add_widget_properties_lines recurse st w lines wt ct =
      .ok (st2, ls, w2)) :
    ∃ extra, ls = lines ++ extra := by
  simp only [add_widget_properties_lines, Bind.bind, Except.bind] at h
  cases hb : byteMonitorLines wt w.contents w
      (visibilitySection st w.contents).1 ct with
  | error e => rw [hb] at h; cases h
  | ok byteL =>
    rw [hb] at h
    cases ha : arcLines wt w.contents with
    | error e => rw [ha] at h; cases h
    | ok arcL =>
      rw [ha] at h
      cases hgrp : groupSection recurse (visibilitySection st w.contents).1
          w wt ct with
      | error e => rw [hgrp] at h; cases h
      | ok gres =>
        rw [hgrp] at h
        simp only [Pure.pure, Except.pure, Except.ok.injEq, Prod.mk.injEq] at h
        refine ⟨preLines wt w st ct ++ (visibilitySection st w.contents).2 ++
          byteL ++ choiceLines wt w.contents ++ arcL ++ gres.2.1, ?_⟩
        rw [← h.2.1]
        simp [List.append_assoc]

/-- Claim C4 (amended): the dispatcher returns an empty line list
exactly when the widget is completely outside the canvas (checked
first) or its symbol has no entry in `WIDGET_TYPE_MAP`; any other
widget for which the dispatcher returns at all yields its name/type
line first.  (The original claim's "every other widget yields at least
its name/type line" fails when a numeric attribute is malformed: the
conversion then raises instead of returning lines — see the
counterexample.) -/
theorem c4_omission_iff (f : Nat) (st : ConvState) (w : Widget) (i : Nat)
    (ct : List Color) :
    (convert_widget_to_lines (f + 1) st w i ct = .ok (st, [], w) ↔
      (outsideCanvas st w = true ∨ lookupKV WIDGET_TYPE_MAP w.symbol = none)) ∧
    (∀ st2 ls w2 wt, outsideCanvas st w = false →
      lookupKV WIDGET_TYPE_MAP w.symbol = some wt →
      convert_widget_to_lines (f + 1) st w i ct = .ok (st2, ls, w2) →
      ls.head? = some (widget_name_of w i ++ ": !" ++ wt)) := by
  constructor
  · constructor
    · intro h
      by_cases ho : outsideCanvas st w = true
      · exact Or.inl ho
      · simp only [Bool.not_eq_true] at ho
        cases hm : lookupKV WIDGET_TYPE_MAP w.symbol with
        | none => exact Or.inr rfl
        | some wt =>
          exfalso
          simp only [convert_widget_to_lines, ho, Bool.false_eq_true,
            if_false, hm] at h
          by_cases hc : w.contents.isEmpty
          · simp only [hc, if_true] at h
            simp at h
          · simp only [hc, Bool.false_eq_true, if_false] at h
            obtain ⟨extra, hextra⟩ := add_props_append _ _ _ _ _ _ _ _ _ h
            simp at hextra
    · intro h
      rcases h with ho | hm
      · simp [convert_widget_to_lines, ho]
      · simp only [convert_widget_to_lines]
        by_cases ho : outsideCanvas st w = true
        · simp [ho]
        · simp only [Bool.not_eq_true] at ho
          simp [ho, hm]
  · intro st2 ls w2 wt ho hm h
    simp only [convert_widget_to_lines, ho, Bool.false_eq_true, if_false,
      hm] at h
    by_cases hc : w.contents.isEmpty
    · simp only [hc, if_true, Except.ok.injEq, Prod.mk.injEq] at h
      rw [← h.2.1]
      rfl
    · simp only [hc, Bool.false_eq_true, if_false] at h
      obtain ⟨extra, hextra⟩ := add_props_append _ _ _ _ _ _ _ _ _ h
      rw [hextra]
      rfl

/-- Claim C4, counterexample: `wByte` is inside the canvas and its
symbol `byte` is mapped, yet the dispatcher yields no lines at all —
`int("x")` raises, so the widget does not "yield at least its
name/type line". -/
theorem c4_counterexample :
    outsideCanvas initState wByte = false ∧
    lookupKV WIDGET_TYPE_MAP wByte.symbol = some "ByteMonitor" ∧
    convert_widget_to_lines 1 initState wByte 0 [] =
      .error "invalid literal for int()" := by
  refine ⟨by decide, by decide, by rfl⟩

/-- Claim C4, witness: the out-of-canvas widget `wOut` is omitted, and
the mapped in-canvas widget `wTxt` yields its name/type line first. -/
theorem c4_witness :
    convert_widget_to_lines 1 initState wOut 0 [] = .ok (initState, [], wOut) ∧
    (["Hi_0: !Text", "    geometry: 0x0x10x10"] : List String).head? =
      some (widget_name_of wTxt 0 ++ ": !" ++ "Text") :=
  ⟨(c4_omission_iff 0 initState wOut 0 []).1.mpr (Or.inl (by decide)),
   (c4_omission_iff 0 initState wTxt 0 []).2 initState
     ["Hi_0: !Text", "    geometry: 0x0x10x10"] wTxt "Text"
     (by decide) (by decide) (by rfl)⟩

theorem groupSection_no_widgets
    (recurse : ConvState → Widget → Nat → List Color → Except String ConvResult)
    (st : ConvState) (w : Widget) (wt : String) (ct : List Color)
    (h : w.widgets = none) :
    groupSection recurse st w wt ct = .ok (st, [], w) := by
  simp only [groupSection, h]
  by_cases hwt : wt = "Group"
  · simp [hwt]
  · simp [hwt]

theorem visibilitySection_calc (st : ConvState) (c : Contents)
    (da : List (String × String)) (e a : String)
    (hda : lookupKV c "dynamic attribute" = some (.dct da))
    (hvis : lookupKV da "vis" = some "calc")
    (hchan : lookupKV da "chan" = some a)
    (hcalc : lookupKV da "calc" = some e)
    (he : e ≠ "") (ha : a ≠ "") :
    visibilitySection st c =
      ({ st with
           calc_node_counter := st.calc_node_counter + 1,
           calc_nodes := some (st.calc_nodes.getD [] ++
             [⟨"EnableCalc_" ++ natToStr (st.calc_node_counter + 1), e, a,
               (lookupKV da "chanB").getD "", (lookupKV da "chanC").getD "",
               (lookupKV da "chanD").getD ""⟩]) },
       ["    visibility: \"" ++
          ("EnableCalc_" ++ natToStr (st.calc_node_counter + 1)) ++
          ".CALC\""]) := by
  simp only [visibilitySection, hda, hvis, hchan, hcalc]
  rw [if_neg (by decide), if_neg (by decide)]
  simp only [if_true, Option.getD_some]
  rw [if_pos ⟨he, ha⟩]

/-- Claim C5: a widget whose dynamic attribute has visibility mode
"calc" with a non-empty expression and channel A bound produces, during
lowering (here for non-container widgets), exactly one new Calc node:
the counter advances by one, one record named
`EnableCalc_<counter>` holding the source expression is appended,
the widget's emitted visibility line names that node's `.CALC` output
channel, and the node's emitted block exposes the compiled expression
and the same `.CALC` channel as its `pv`. -/
theorem c5_calc_visibility_node
    (recurse : ConvState → Widget → Nat → List Color → Except String ConvResult)
    (st : ConvState) (w : Widget) (lines : List String) (wt : String)
    (ct : List Color) (st2 : ConvState) (ls : List String) (w2 : Widget)
    (da : List (String × String)) (e a : String) (node : CalcInfo)
    (hda : lookupKV w.contents "dynamic attribute" = some (.dct da))
    (hvis : lookupKV da "vis" = some "calc")
    (hchan : lookupKV da "chan" = some a)
    (hcalc : lookupKV da "calc" = some e)
    (he : e ≠ "") (ha : a ≠ "")
    (hnw : w.widgets = none)
    (hnode : node = ⟨"EnableCalc_" ++ natToStr (st.calc_node_counter + 1),
      e, a, (lookupKV da "chanB").getD "", (lookupKV da "chanC").getD "",
      (lookupKV da "chanD").getD ""⟩)
    (hres : add_widget_properties_lines recurse st w lines wt ct =
      .ok (st2, ls, w2)) :
    st2.calc_node_counter = st.calc_node_counter + 1 ∧
    st2.calc_nodes = some (st.calc_nodes.getD [] ++ [node]) ∧
    ("    visibility: \"" ++ node.name ++ ".CALC\"") ∈ ls ∧
    ("    calc: \"" ++ convert_medm_to_python e ++ "\"") ∈ calcNodeBlock node ∧
    ("    pv: \"" ++ node.name ++ ".CALC\"") ∈ calcNodeBlock node := by
  subst hnode
  simp only [add_widget_properties_lines, Bind.bind, Except.bind] at hres
  rw [visibilitySection_calc st w.contents da e a hda hvis hchan hcalc he ha]
    at hres
  rw [groupSection_no_widgets recurse _ w wt ct hnw] at hres
  cases hb : byteMonitorLines wt w.contents w
      { st with
          calc_node_counter := st.calc_node_counter + 1,
          calc_nodes := some (st.calc_nodes.getD [] ++
            [⟨"EnableCalc_" ++ natToStr (st.calc_node_counter + 1), e, a,
              (lookupKV da "chanB").getD "", (lookupKV da "chanC").getD "",
              (lookupKV da "chanD").getD ""⟩]) } ct with
  | error er => rw [hb] at hres; cases hres
  | ok byteL =>
    rw [hb] at hres
    cases harc : arcLines wt w.contents with
    | error er => rw [harc] at hres; cases hres
    | ok arcL =>
      rw [harc] at hres
      simp only [Pure.pure, Except.pure, Except.ok.injEq, Prod.mk.injEq] at hres
      obtain ⟨hst2, hls, _⟩ := hres
      subst hst2
      refine ⟨rfl, rfl, ?_, ?_, ?_⟩
      · rw [← hls]
        simp [List.mem_append]
      · simp [calcNodeBlock]
      · simp [calcNodeBlock]

/-- Claim C5, witness: the fixture `wCalc` (expression `A#0`, channel
`PV:A`) creates the single node `EnableCalc_1` whose compiled
expression is `A!=0`, with the widget's visibility line and the node's
`pv` both naming `EnableCalc_1.CALC`. -/
theorem c5_witness :
    (({ initState with
          calc_node_counter := 1,
          calc_nodes := some [⟨"EnableCalc_1", "A#0", "PV:A", "", "", ""⟩] } :
        ConvState).calc_node_counter = initState.calc_node_counter + 1 ∧
      ({ initState with
           calc_node_counter := 1,
           calc_nodes := some [⟨"EnableCalc_1", "A#0", "PV:A", "", "", ""⟩] } :
         ConvState).calc_nodes =
        some (initState.calc_nodes.getD [] ++
          [⟨"EnableCalc_1", "A#0", "PV:A", "", "", ""⟩]) ∧
      ("    visibility: \"" ++
          (⟨"EnableCalc_1", "A#0", "PV:A", "", "", ""⟩ : CalcInfo).name ++
          ".CALC\"") ∈ ["    visibility: \"EnableCalc_1.CALC\""] ∧
      ("    calc: \"" ++ convert_medm_to_python "A#0" ++ "\"") ∈
        calcNodeBlock ⟨"EnableCalc_1", "A#0", "PV:A", "", "", ""⟩ ∧
      ("    pv: \"" ++
          (⟨"EnableCalc_1", "A#0", "PV:A", "", "", ""⟩ : CalcInfo).name ++
          ".CALC\"") ∈
        calcNodeBlock ⟨"EnableCalc_1", "A#0", "PV:A", "", "", ""⟩) ∧
    convert_medm_to_python "A#0" = "A!=0" :=
  ⟨c5_calc_visibility_node recurseNone initState wCalc [] "Rectangle" []
      { initState with
          calc_node_counter := 1,
          calc_nodes := some [⟨"EnableCalc_1", "A#0", "PV:A", "", "", ""⟩] }
      ["    visibility: \"EnableCalc_1.CALC\""] wCalc
      [("vis", "calc"), ("chan", "PV:A"), ("calc", "A#0")] "A#0" "PV:A"
      ⟨"EnableCalc_1", "A#0", "PV:A", "", "", ""⟩
      (by decide) (by decide) (by decide) (by decide) (by decide) (by decide)
      rfl rfl (by rfl),
   by decide⟩

theorem convert_ok_decomp (f : Nat) (st : ConvState) (w : Widget) (i : Nat)
    (ct : List Color) (st2 : ConvState) (ls : List String) (w2 : Widget)
    (wt : String)
    (ho : outsideCanvas st w = false)
    (hm : lookupKV WIDGET_TYPE_MAP w.symbol = some wt)
    (hc : w.contents.isEmpty = false)
    (h : convert_widget_to_lines (f + 1) st w i ct = .ok (st2, ls, w2)) :
    ∃ byteL arcL grpL,
      (ls = ((widget_name_of w i ++ ": !" ++ wt) ::
          geometryLines w ++ genericColorLines wt w st ct) ++
        preLines wt w st ct ++ (visibilitySection st w.contents).2 ++
        byteL ++ choiceLines wt w.contents ++ arcL ++ grpL) ∧
      byteMonitorLines wt w.contents w (visibilitySection st w.contents).1 ct =
        .ok byteL ∧
      arcLines wt w.contents = .ok arcL ∧
      (∃ st3 w3, groupSection (convert_widget_to_lines f)
          (visibilitySection st w.contents).1 w wt ct =
        .ok (st3, grpL, w3)) := by
  simp only [convert_widget_to_lines, ho, Bool.false_eq_true, if_false, hm,
    hc, add_widget_properties_lines, Bind.bind, Except.bind] at h
  cases hb : byteMonitorLines wt w.contents w
      (visibilitySection st w.contents).1 ct with
  | error e => rw [hb] at h; cases h
  | ok byteL =>
    rw [hb] at h
    cases ha : arcLines wt w.contents with
    | error e => rw [ha] at h; cases h
    | ok arcL =>
      rw [ha] at h
      cases hgrp : groupSection (convert_widget_to_lines f)
          (visibilitySection st w.contents).1 w wt ct with
      | error e => rw [hgrp] at h; cases h
      | ok gres =>
        rw [hgrp] at h
        simp only [Pure.pure, Except.pure, Except.ok.injEq, Prod.mk.injEq] at h
        refine ⟨byteL, arcL, gres.2.1, ?_, rfl, rfl, gres.1, gres.2.2, rfl⟩
        rw [← h.2.1]

theorem mem_preLines_of_rd {x : String} {wt : String} {w : Widget}
    {st : ConvState} {ct : List Color}
    (h : x ∈ relatedDisplayLines wt w w.contents) : x ∈ preLines wt w st ct := by
  simp only [preLines, List.mem_append]
  tauto

theorem mem_preLines_of_sc {x : String} {wt : String} {w : Widget}
    {st : ConvState} {ct : List Color}
    (h : x ∈ shellCommandLines wt w w.contents) : x ∈ preLines wt w st ct := by
  simp only [preLines, List.mem_append]
  tauto

/-- Claim C10 (amended): for related-display widgets both the button
label and each link label have a single leading `-` stripped
(`clean_medm_label`); for shell-command widgets the button label is
emitted verbatim — the stripping is not applied there (see the
counterexample). -/
theorem c10_label_strip (f : Nat) (st : ConvState) (w : Widget) (i : Nat)
    (ct : List Color) (st2 : ConvState) (ls : List String) (w2 : Widget)
    (ho : outsideCanvas st w = false)
    (h : convert_widget_to_lines (f + 1) st w i ct = .ok (st2, ls, w2)) :
    (∀ ds lab, lookupKV WIDGET_TYPE_MAP w.symbol = some "RelatedDisplay" →
      w.displays = some ds →
      lookupKV w.contents "label" = some (.str lab) →
      ("    text: \"" ++ clean_medm_label lab ++ "\"") ∈ ls) ∧
    (∀ ds d nm, lookupKV WIDGET_TYPE_MAP w.symbol = some "RelatedDisplay" →
      w.contents.isEmpty = false →
      w.displays = some ds → d ∈ ds → lookupKV d "name" = some nm →
      ("        - \x7b label: \"" ++
         clean_medm_label ((lookupKV d "label").getD nm) ++
         "\", file: \"" ++ nm ++ "\", macros: \"" ++
         (lookupKV d "args").getD "" ++ "\" \x7d") ∈ ls) ∧
    (∀ cs lab, lookupKV WIDGET_TYPE_MAP w.symbol = some "ShellCommand" →
      w.commands = some cs →
      lookupKV w.contents "label" = some (.str lab) →
      ("    text: \"" ++ lab ++ "\"") ∈ ls) := by
  have hcts : ∀ (key : String) (v : ContentVal),
      lookupKV w.contents key = some v → w.contents.isEmpty = false := by
    intro key v hk
    cases hw : w.contents with
    | nil => rw [hw] at hk; cases hk
    | cons p rest => rfl
  refine ⟨?_, ?_, ?_⟩
  · intro ds lab hm hds hlab
    obtain ⟨byteL, arcL, grpL, hdec, -, -, -⟩ :=
      convert_ok_decomp f st w i ct st2 ls w2 _ ho hm (hcts _ _ hlab) h
    rw [hdec]
    have hx : ("    text: \"" ++ clean_medm_label lab ++ "\"") ∈
        relatedDisplayLines "RelatedDisplay" w w.contents := by
      simp [relatedDisplayLines, hds, hlab, pyStr]
    have hmem := @mem_preLines_of_rd _ _ w st ct hx
    simp only [List.mem_append]
    exact Or.inl (Or.inl (Or.inl (Or.inl (Or.inl (Or.inr hmem)))))
  · intro ds d nm hm hcne hds hd hnm
    obtain ⟨byteL, arcL, grpL, hdec, -, -, -⟩ :=
      convert_ok_decomp f st w i ct st2 ls w2 _ ho hm hcne h
    rw [hdec]
    have hdse : ds.isEmpty = false := by
      cases ds with
      | nil => cases hd
      | cons d0 rest => rfl
    have hx : ("        - \x7b label: \"" ++
        clean_medm_label ((lookupKV d "label").getD nm) ++
        "\", file: \"" ++ nm ++ "\", macros: \"" ++
        (lookupKV d "args").getD "" ++ "\" \x7d") ∈
        relatedDisplayLines "RelatedDisplay" w w.contents := by
      simp only [relatedDisplayLines, if_pos rfl, hds, hdse,
        Bool.false_eq_true, if_false]
      apply List.mem_append.mpr
      refine Or.inr (List.mem_cons_of_mem _ ?_)
      apply List.mem_filterMap.mpr
      refine ⟨d, hd, ?_⟩
      rw [hnm]
      rfl
    have hmem := @mem_preLines_of_rd _ _ w st ct hx
    simp only [List.mem_append]
    exact Or.inl (Or.inl (Or.inl (Or.inl (Or.inl (Or.inr hmem)))))
  · intro cs lab hm hcs hlab
    obtain ⟨byteL, arcL, grpL, hdec, -, -, -⟩ :=
      convert_ok_decomp f st w i ct st2 ls w2 _ ho hm (hcts _ _ hlab) h
    rw [hdec]
    have hx : ("    text: \"" ++ lab ++ "\"") ∈
        shellCommandLines "ShellCommand" w w.contents := by
      simp [shellCommandLines, hcs, hlab, pyStr]
    have hmem := @mem_preLines_of_sc _ _ w st ct hx
    simp only [List.mem_append]
    exact Or.inl (Or.inl (Or.inl (Or.inl (Or.inl (Or.inr hmem)))))

/-- Claim C10, counterexample: the shell-command widget `wSC` keeps the
leading `-` on both its button label (`-Run`) and its command-record
label (`-L`) — `clean_medm_label` is applied only on the
related-display path. -/
theorem c10_counterexample :
    (convert_widget_to_lines 1 initState wSC 0 []).map (fun r => r.2.1) =
      .ok ["shell_command_0: !ShellCommand", "    geometry: 0x0x10x10",
           "    text: \"-Run\"", "    commands:",
           "        - \x7b label: \"-L\", command: \"ls\" \x7d"] := by
  rfl

/-- Claim C10, witness: the related-display widget `wRD` has the `-`
stripped from both its button label (`-Files` → `Files`) and its link
label (`-Sub` → `Sub`), while the shell-command widget `wSC` keeps
`-Run` verbatim. -/
theorem c10_witness :
    ("    text: \"Files\"" : String) ∈
      ["related_display_0: !RelatedDisplay", "    geometry: 0x0x10x10",
       "    text: \"Files\"", "    links:",
       "        - \x7b label: \"Sub\", file: \"sub.adl\", macros: \"\" \x7d"] ∧
    ("        - \x7b label: \"Sub\", file: \"sub.adl\", macros: \"\" \x7d" :
        String) ∈
      ["related_display_0: !RelatedDisplay", "    geometry: 0x0x10x10",
       "    text: \"Files\"", "    links:",
       "        - \x7b label: \"Sub\", file: \"sub.adl\", macros: \"\" \x7d"] ∧
    ("    text: \"-Run\"" : String) ∈
      ["shell_command_0: !ShellCommand", "    geometry: 0x0x10x10",
       "    text: \"-Run\"", "    commands:",
       "        - \x7b label: \"-L\", command: \"ls\" \x7d"] :=
  ⟨(c10_label_strip 0 initState wRD 0 [] initState
      ["related_display_0: !RelatedDisplay", "    geometry: 0x0x10x10",
       "    text: \"Files\"", "    links:",
       "        - \x7b label: \"Sub\", file: \"sub.adl\", macros: \"\" \x7d"]
      wRD (by decide) (by rfl)).1
      [[("name", "sub.adl"), ("label", "-Sub")]] "-Files"
      (by decide) rfl (by decide),
   (c10_label_strip 0 initState wRD 0 [] initState
      ["related_display_0: !RelatedDisplay", "    geometry: 0x0x10x10",
       "    text: \"Files\"", "    links:",
       "        - \x7b label: \"Sub\", file: \"sub.adl\", macros: \"\" \x7d"]
      wRD (by decide) (by rfl)).2.1
      [[("name", "sub.adl"), ("label", "-Sub")]]
      [("name", "sub.adl"), ("label", "-Sub")] "sub.adl"
      (by decide) rfl rfl (by decide) (by decide),
   (c10_label_strip 0 initState wSC 0 [] initState
      ["shell_command_0: !ShellCommand", "    geometry: 0x0x10x10",
       "    text: \"-Run\"", "    commands:",
       "        - \x7b label: \"-L\", command: \"ls\" \x7d"]
      wSC (by decide) (by rfl)).2.2
      [[("name", "ls"), ("label", "-L")]] "-Run"
      (by decide) rfl (by decide)⟩

theorem dataAppend (a b : String) : (a ++ b).data = a.data ++ b.data := by
  cases a
  cases b
  rfl

theorem startsL_append_elim :
    ∀ (q p t : List Char), startsL q (p ++ t) = true →
      startsL (q.take p.length) p = true := by
  intro q
  induction q with
  | nil => intro p t _; cases p <;> rfl
  | cons a qs ih =>
    intro p t h
    cases p with
    | nil => rfl
    | cons b ps =>
      simp only [List.cons_append, startsL, Bool.and_eq_true] at h
      simp only [List.length_cons, List.take_succ_cons, startsL,
        Bool.and_eq_true]
      exact ⟨h.1, ih ps t h.2⟩

theorem safePre (q p : List Char)
    (hp : startsL (q.take p.length) p = false) (t : List Char) :
    startsL q (p ++ t) = false := by
  cases hx : startsL q (p ++ t)
  · rfl
  · rw [startsL_append_elim q p t hx] at hp
    cases hp

theorem startsL_false_head (q : List Char) (c : Char) (s : List Char)
    (hq : ∃ q0 qs, q = q0 :: qs ∧ q0 ≠ c) :
    startsL q (c :: s) = false := by
  obtain ⟨q0, qs, hq, hne⟩ := hq
  subst hq
  simp only [startsL, Bool.and_eq_false_iff]
  left
  exact beq_eq_false_iff_ne.mpr hne

theorem replaceL_preserves_absence (pat repl : List Char) (ch : Char)
    (hr : ch ∉ repl) :
    ∀ (n : Nat) (s : List Char), s.length ≤ n → ch ∉ s →
      ch ∉ replaceL pat repl s := by
  intro n
  induction n with
  | zero =>
    intro s hl hs
    have : s = [] := List.eq_nil_of_length_eq_zero (Nat.le_zero.mp hl)
    subst this
    simp [replaceL, replaceFuel]
  | succ n ih =>
    intro s hl hs
    cases s with
    | nil => simp [replaceL, replaceFuel]
    | cons c rest =>
      by_cases hcond : (!pat.isEmpty && startsL pat (c :: rest)) = true
      · simp only [Bool.and_eq_true, Bool.not_eq_true', Bool.not_eq_false]
          at hcond
        rw [replaceL_pos pat repl c rest hcond.1 hcond.2]
        intro hmem
        rcases List.mem_append.mp hmem with hin | hin
        · exact hr hin
        · have hdl : (rest.drop (pat.length - 1)).length ≤ n := by
            simp only [List.length_cons] at hl
            simp [List.length_drop]
            omega
          exact ih _ hdl (fun hm => hs (List.mem_cons_of_mem c
            (List.mem_of_mem_drop hm))) hin
      · rw [replaceL_neg pat repl c rest (by
          cases hx : (!pat.isEmpty && startsL pat (c :: rest))
          · rfl
          · exact absurd hx hcond)]
        intro hmem
        rcases List.mem_cons.mp hmem with hin | hin
        · exact hs (hin ▸ List.mem_cons_self c rest)
        · exact ih rest (by simp at hl; omega)
            (fun hm => hs (List.mem_cons_of_mem c hm)) hin

theorem replaceL_removes_char (c0 : Char) (repl : List Char)
    (hr : c0 ∉ repl) :
    ∀ (n : Nat) (s : List Char), s.length ≤ n →
      c0 ∉ replaceL [c0] repl s := by
  intro n
  induction n with
  | zero =>
    intro s hl
    have : s = [] := List.eq_nil_of_length_eq_zero (Nat.le_zero.mp hl)
    subst this
    simp [replaceL, replaceFuel]
  | succ n ih =>
    intro s hl
    cases s with
    | nil => simp [replaceL, replaceFuel]
    | cons c rest =>
      by_cases hc : c0 = c
      · subst hc
        rw [replaceL_pos [c0] repl c0 rest rfl (by simp [startsL])]
        intro hmem
        rcases List.mem_append.mp hmem with hin | hin
        · exact hr hin
        · have : c0 ∉ replaceL [c0] repl (rest.drop 0) :=
            ih (rest.drop 0) (by simp at hl ⊢; omega)
          exact this hin
      · rw [replaceL_neg [c0] repl c rest (by
          simp [startsL, beq_eq_false_iff_ne.mpr hc])]
        intro hmem
        rcases List.mem_cons.mp hmem with hin | hin
        · exact hc hin
        · exact ih rest (by simp at hl; omega) hin

theorem natToStr_no_space (i : Nat) : ' ' ∉ (natToStr i).data := by
  by_cases h : i = 0
  · subst h
    decide
  · simp only [natToStr, if_neg h]
    intro hmem
    rw [List.mem_map] at hmem
    obtain ⟨d, hd, hencEq⟩ := hmem
    have hdl : d < 10 := natDigsAux_lt10 i i d (List.mem_reverse.mp hd)
    have key : ∀ d, d < 10 → Char.ofNat (48 + d) ≠ ' ' := by decide
    exact key d hdl hencEq

theorem widget_name_no_space (w : Widget) (i : Nat) :
    ' ' ∉ (widget_name_of w i).data := by
  have hbase : ' ' ∉ (pyReplace w.symbol " " "_" ++ "_" ++ natToStr i).data := by
    rw [dataAppend, dataAppend]
    intro hmem
    rcases List.mem_append.mp hmem with hin | hin
    · rcases List.mem_append.mp hin with hin2 | hin2
      · exact replaceL_removes_char ' ' ['_'] (by decide)
          w.symbol.data.length w.symbol.data le_rfl hin2
      · simp at hin2
    · exact natToStr_no_space i hin
  cases ht : w.title with
  | none =>
    simp only [widget_name_of, ht]
    exact hbase
  | some t =>
    simp only [widget_name_of, ht]
    by_cases htne : t ≠ ""
    · rw [if_pos htne]
      rw [dataAppend, dataAppend]
      intro hmem
      rcases List.mem_append.mp hmem with hin | hin
      · rcases List.mem_append.mp hin with hin2 | hin2
        · have step1 : ' ' ∉ replaceL " ".data "_".data
              (⟨t.data.take 20⟩ : String).data :=
            replaceL_removes_char ' ' ['_'] (by decide) _ _ le_rfl
          have step2 : ' ' ∉ (pyReplace (pyReplace ⟨t.data.take 20⟩ " " "_")
              "/" "_").data :=
            replaceL_preserves_absence "/".data "_".data ' ' (by decide)
              _ _ le_rfl step1
          have step3 : ' ' ∉ (pyReplace (pyReplace (pyReplace ⟨t.data.take 20⟩
              " " "_") "/" "_") ":" "").data :=
            replaceL_preserves_absence ":".data "".data ' ' (by decide)
              _ _ le_rfl step2
          exact step3 hin2
        · simp at hin2
      · exact natToStr_no_space i hin
    · rw [if_neg htne]
      exact hbase

theorem nameLine_safe (w : Widget) (i : Nat) (wt : String) :
    startsL "    background: ".data
      ((widget_name_of w i ++ ": !" ++ wt)).data = false := by
  rw [dataAppend, dataAppend]
  cases hn : (widget_name_of w i).data with
  | nil => rfl
  | cons c cs =>
    apply startsL_false_head
    refine ⟨' ', _, rfl, ?_⟩
    intro hc
    have : ' ' ∈ (widget_name_of w i).data := by
      rw [hn, ← hc]
      exact List.mem_cons_self _ _
    exact widget_name_no_space w i this

theorem geometryLines_safe (w : Widget) :
    ∀ l ∈ geometryLines w, startsL "    background: ".data l.data = false := by
  intro l hl
  simp only [geometryLines] at hl
  cases hg : w.geometry with
  | none => rw [hg] at hl; cases hl
  | some g =>
    rw [hg] at hl
    rw [List.mem_singleton.mp hl]
    rw [dataAppend, dataAppend, dataAppend, dataAppend, dataAppend,
      dataAppend, dataAppend]
    simp only [List.append_assoc]
    exact safePre _ _ (by decide) _

theorem strAssoc (a b c : String) : (a ++ b) ++ c = a ++ (b ++ c) := by
  apply stringDataEq
  rw [dataAppend, dataAppend, dataAppend, dataAppend, List.append_assoc]

theorem safeStart (P rest : String)
    (hp : startsL ("    background: ".data.take P.data.length) P.data = false) :
    startsL "    background: ".data (P ++ rest).data = false := by
  rw [dataAppend]
  exact safePre _ _ hp _

theorem pvLines_safe (c : Contents) :
    ∀ l ∈ pvLines c, startsL "    background: ".data l.data = false := by
  intro l hl
  simp only [pvLines] at hl
  rcases List.mem_append.mp hl with h | h <;>
  · repeat' split at h
    all_goals first
      | (rw [List.mem_singleton] at h
         subst h
         simp only [strAssoc]
         exact safeStart _ _ (by decide))
      | cases h

theorem pointsLines_safe (wt : String) (w : Widget) :
    ∀ l ∈ pointsLines wt w, startsL "    background: ".data l.data = false := by
  intro l hl
  simp only [pointsLines] at hl
  repeat' split at hl
  all_goals first
    | (rw [List.mem_singleton] at hl
       subst hl
       simp only [strAssoc]
       exact safeStart _ _ (by decide))
    | cases hl

theorem polylineColorLines_safe (wt : String) (w : Widget) (st : ConvState)
    (ct : List Color) :
    ∀ l ∈ polylineColorLines wt w st ct,
      startsL "    background: ".data l.data = false := by
  intro l hl
  simp only [polylineColorLines] at hl
  repeat' split at hl
  all_goals first
    | (rw [List.mem_singleton] at hl
       subst hl
       simp only [strAssoc]
       exact safeStart _ _ (by decide))
    | cases hl

theorem shapeColorLines_outline_safe (wt : String) (w : Widget)
    (st : ConvState) (ct : List Color) (c : Contents)
    (hout : isOutlined c = true) :
    ∀ l ∈ shapeColorLines wt w st ct c,
      startsL "    background: ".data l.data = false := by
  intro l hl
  simp only [shapeColorLines, hout, if_true] at hl
  repeat' split at hl
  all_goals first
    | (rw [List.mem_singleton] at hl
       subst hl
       simp only [strAssoc]
       exact safeStart _ _ (by decide))
    | cases hl

theorem borderLines_safe (wt : String) (c : Contents) :
    ∀ l ∈ borderLines wt c, startsL "    background: ".data l.data = false := by
  intro l hl
  simp only [borderLines] at hl
  repeat' split at hl
  all_goals try (rw [List.mem_append] at hl; rcases hl with hl | hl)
  all_goals first
    | (rw [List.mem_singleton] at hl
       subst hl
       simp only [strAssoc]
       exact safeStart _ _ (by decide))
    | cases hl

theorem visibilitySection_safe (st : ConvState) (c : Contents) :
    ∀ l ∈ (visibilitySection st c).2,
      startsL "    background: ".data l.data = false := by
  intro l hl
  simp only [visibilitySection] at hl
  repeat' split at hl
  all_goals first
    | (rw [List.mem_singleton] at hl
       subst hl
       simp only [strAssoc]
       exact safeStart _ _ (by decide))
    | cases hl

theorem arcLines_safe (wt : String) (c : Contents) (arcL : List String)
    (h : arcLines wt c = .ok arcL) :
    ∀ l ∈ arcL, startsL "    background: ".data l.data = false := by
  intro l hl
  simp only [arcLines, Bind.bind, Except.bind, Pure.pure, Except.pure] at h
  repeat' split at h
  all_goals first
    | (simp only [Except.ok.injEq] at h
       subst h
       first
         | (rw [List.mem_append] at hl
            rcases hl with hl | hl <;>
              first
                | (rw [List.mem_singleton] at hl
                   subst hl
                   simp only [strAssoc]
                   exact safeStart _ _ (by decide))
                | cases hl)
         | cases hl)
    | cases h

theorem byteMonitorLines_not_byte (wt : String) (c : Contents) (w : Widget)
    (st : ConvState) (ct : List Color) (hwt : wt ≠ "ByteMonitor") :
    byteMonitorLines wt c w st ct = .ok [] := by
  simp [byteMonitorLines, hwt, Pure.pure, Except.pure]

theorem choiceLines_not_choice (wt : String) (c : Contents)
    (hwt : wt ≠ "ChoiceButton") : choiceLines wt c = [] := by
  simp [choiceLines, hwt]

theorem groupSection_not_group
    (recurse : ConvState → Widget → Nat → List Color → Except String ConvResult)
    (st : ConvState) (w : Widget) (wt : String) (ct : List Color)
    (hwt : wt ≠ "Group") :
    groupSection recurse st w wt ct = .ok (st, [], w) := by
  simp [groupSection, hwt]

theorem genericColorLines_safe (wt : String) (w : Widget) (st : ConvState)
    (ct : List Color)
    (hcase : colorTruthy w.background_color = false ∨ wt ∈ shapesList) :
    ∀ l ∈ genericColorLines wt w st ct,
      startsL "    background: ".data l.data = false := by
  intro l hl
  simp only [genericColorLines] at hl
  rw [List.mem_append] at hl
  rcases hl with hl | hl
  · repeat' split at hl
    all_goals first
      | (rw [List.mem_singleton] at hl
         subst hl
         simp only [strAssoc]
         exact safeStart _ _ (by decide))
      | cases hl
  · rcases hcase with hbg | hwt
    · rw [hbg] at hl
      simp at hl
    · simp only [hwt, not_true_eq_false, and_false, if_false] at hl
      repeat' split at hl
      all_goals cases hl

theorem convert_ok_mem_base (f : Nat) (st : ConvState) (w : Widget) (i : Nat)
    (ct : List Color) (st2 : ConvState) (ls : List String) (w2 : Widget)
    (wt : String)
    (ho : outsideCanvas st w = false)
    (hm : lookupKV WIDGET_TYPE_MAP w.symbol = some wt)
    (h : convert_widget_to_lines (f + 1) st w i ct = .ok (st2, ls, w2)) :
    ∀ l, l ∈ ((widget_name_of w i ++ ": !" ++ wt) ::
        geometryLines w ++ genericColorLines wt w st ct) → l ∈ ls := by
  intro l hl
  by_cases hc : w.contents.isEmpty
  · simp only [convert_widget_to_lines, ho, Bool.false_eq_true, if_false, hm,
      hc, if_true, Except.ok.injEq, Prod.mk.injEq] at h
    rw [← h.2.1]
    exact hl
  · obtain ⟨byteL, arcL, grpL, hdec, -, -, -⟩ := convert_ok_decomp f st w i ct
      st2 ls w2 wt ho hm (by
        cases hx : w.contents.isEmpty
        · rfl
        · exact absurd hx hc) h
    rw [hdec]
    exact List.mem_append_left _ (List.mem_append_left _
      (List.mem_append_left _ (List.mem_append_left _
        (List.mem_append_left _ (List.mem_append_left _ hl)))))

theorem convert_ok_mem_pre (f : Nat) (st : ConvState) (w : Widget) (i : Nat)
    (ct : List Color) (st2 : ConvState) (ls : List String) (w2 : Widget)
    (wt : String)
    (ho : outsideCanvas st w = false)
    (hm : lookupKV WIDGET_TYPE_MAP w.symbol = some wt)
    (hc : w.contents.isEmpty = false)
    (h : convert_widget_to_lines (f + 1) st w i ct = .ok (st2, ls, w2)) :
    ∀ l, l ∈ preLines wt w st ct → l ∈ ls := by
  intro l hl
  obtain ⟨byteL, arcL, grpL, hdec, -, -, -⟩ :=
    convert_ok_decomp f st w i ct st2 ls w2 wt ho hm hc h
  rw [hdec]
  exact List.mem_append_left _ (List.mem_append_left _
    (List.mem_append_left _ (List.mem_append_left _
      (List.mem_append_left _ (List.mem_append_right _ hl)))))

theorem noBg_core (f : Nat) (st : ConvState) (w : Widget) (i : Nat)
    (ct : List Color) (st2 : ConvState) (ls : List String) (w2 : Widget)
    (wt : String)
    (ho : outsideCanvas st w = false)
    (hm : lookupKV WIDGET_TYPE_MAP w.symbol = some wt)
    (h : convert_widget_to_lines (f + 1) st w i ct = .ok (st2, ls, w2))
    (hgen : ∀ l ∈ genericColorLines wt w st ct,
      startsL "    background: ".data l.data = false)
    (htext : textLines wt w = [])
    (hfa : formatAlignLines wt w.contents = [])
    (hsl : sliderLines wt w.contents = [])
    (hbu : buttonLines wt w.contents = [])
    (hrd : relatedDisplayLines wt w w.contents = [])
    (hsc : shellCommandLines wt w w.contents = [])
    (himg : imageLines wt w.contents = [])
    (hshape : ∀ l ∈ shapeColorLines wt w st ct w.contents,
      startsL "    background: ".data l.data = false)
    (hbyte : wt ≠ "ByteMonitor")
    (hchoice : wt ≠ "ChoiceButton")
    (hgroup : wt ≠ "Group") :
    noBackgroundLine ls := by
  by_cases hc : w.contents.isEmpty
  · intro l hl
    simp only [convert_widget_to_lines, ho, Bool.false_eq_true, if_false, hm,
      hc, if_true, Except.ok.injEq, Prod.mk.injEq] at h
    rw [← h.2.1] at hl
    rcases List.mem_cons.mp hl with hl | hl
    · rw [hl]
      exact nameLine_safe w i wt
    · rcases List.mem_append.mp hl with hl | hl
      · exact geometryLines_safe w l hl
      · exact hgen l hl
  · simp only [Bool.not_eq_true] at hc
    obtain ⟨byteL, arcL, grpL, hdec, hbeq, haeq, st3, w3, hgeq⟩ :=
      convert_ok_decomp f st w i ct st2 ls w2 wt ho hm hc h
    have hbyteL : byteL = [] := by
      rw [byteMonitorLines_not_byte wt w.contents w _ ct hbyte] at hbeq
      simpa using hbeq.symm
    have hgrpL : grpL = [] := by
      rw [groupSection_not_group (convert_widget_to_lines f) _ w wt ct
        hgroup] at hgeq
      have := hgeq
      simp only [Except.ok.injEq, Prod.mk.injEq] at this
      exact this.2.1.symm
    intro l hl
    rw [hdec] at hl
    simp only [List.mem_append] at hl
    rcases hl with (((((((hl | hl) | hl) | hl) | hl) | hl) | hl) | hl)
    · rcases List.mem_cons.mp hl with hl | hl
      · rw [hl]
        exact nameLine_safe w i wt
      · exact geometryLines_safe w l hl
    · exact hgen l hl
    · simp only [preLines, List.mem_append] at hl
      rcases hl with (((((((((((hl | hl) | hl) | hl) | hl) | hl) | hl) | hl)
        | hl) | hl) | hl) | hl)
      · exact pvLines_safe w.contents l hl
      · rw [htext] at hl; cases hl
      · rw [hfa] at hl; cases hl
      · rw [hsl] at hl; cases hl
      · rw [hbu] at hl; cases hl
      · rw [hrd] at hl; cases hl
      · rw [hsc] at hl; cases hl
      · exact pointsLines_safe wt w l hl
      · exact polylineColorLines_safe wt w st ct l hl
      · exact hshape l hl
      · exact borderLines_safe wt w.contents l hl
      · rw [himg] at hl; cases hl
    · exact visibilitySection_safe st w.contents l hl
    · rw [hbyteL] at hl; cases hl
    · rw [choiceLines_not_choice wt w.contents hchoice] at hl; cases hl
    · exact arcLines_safe wt w.contents arcL haeq l hl
    · rw [hgrpL] at hl; cases hl

theorem mem_preLines_of_shapeColor {x : String} {wt : String} {w : Widget}
    {st : ConvState} {ct : List Color}
    (h : x ∈ shapeColorLines wt w st ct w.contents) :
    x ∈ preLines wt w st ct := by
  simp only [preLines, List.mem_append]
  tauto

/-- Claim C6 (amended): for a widget whose foreground color resolves to
a non-empty token `fg`, color emission routes by shape kind — a
`Polyline` always gets a `border-color: fg` line and its foreground is
never routed into a `background:` line (none appears when the widget
has no separate background color); a closed shape (`Arc`, `Ellipse`,
`Rectangle`, `Polygon`) whose basic attribute says "outline" gets only
`border-color: fg` and no `background:` line at all, and otherwise
(filled, with non-empty contents) gets both `background: fg` and
`border-color: fg`.  (The original claim's "line-like shapes never emit
a fill/background line" fails when a polyline carries its own
background color — see the counterexample.) -/
theorem c6_color_routing (f : Nat) (st : ConvState) (w : Widget) (i : Nat)
    (ct : List Color) (st2 : ConvState) (ls : List String) (w2 : Widget)
    (fg : String)
    (ho : outsideCanvas st w = false)
    (h : convert_widget_to_lines (f + 1) st w i ct = .ok (st2, ls, w2))
    (hct : colorTruthy w.color = true)
    (hfg : get_color_reference st w.color ct = some fg)
    (hfge : fg ≠ "") :
    (lookupKV WIDGET_TYPE_MAP w.symbol = some "Polyline" →
      ("    border-color: " ++ fg) ∈ ls ∧
      (colorTruthy w.background_color = false → noBackgroundLine ls)) ∧
    (∀ wt, lookupKV WIDGET_TYPE_MAP w.symbol = some wt → wt ∈ shapesList →
      isOutlined w.contents = true →
      ("    border-color: " ++ fg) ∈ ls ∧ noBackgroundLine ls) ∧
    (∀ wt, lookupKV WIDGET_TYPE_MAP w.symbol = some wt → wt ∈ shapesList →
      isOutlined w.contents = false → w.contents.isEmpty = false →
      ("    background: " ++ fg) ∈ ls ∧ ("    border-color: " ++ fg) ∈ ls) := by
  refine ⟨?_, ?_, ?_⟩
  · intro hm
    constructor
    · apply convert_ok_mem_base f st w i ct st2 ls w2 "Polyline" ho hm h
      apply List.mem_cons_of_mem
      apply List.mem_append_right
      simp only [genericColorLines, hct, if_true, hfg]
      apply List.mem_append_left
      rw [if_pos ⟨hfge, by decide⟩]
      exact List.mem_singleton.mpr rfl
    · intro hbg
      refine noBg_core f st w i ct st2 ls w2 "Polyline" ho hm h
        (genericColorLines_safe _ _ _ _ (Or.inl hbg)) rfl rfl rfl rfl rfl rfl
        rfl ?_ (by decide) (by decide) (by decide)
      intro l hl
      rw [show shapeColorLines "Polyline" w st ct w.contents =
        ([] : List String) from rfl] at hl
      cases hl
  · intro wt hm hwt hout
    have hcne : w.contents.isEmpty = false := by
      cases hcc : w.contents with
      | nil =>
        rw [hcc] at hout
        exact absurd hout (by decide)
      | cons p rest => rfl
    have hsh : shapeColorLines wt w st ct w.contents =
        ["    border-color: " ++ fg] := by
      simp only [shapeColorLines, hct, and_true, if_pos hwt, hfg,
        if_pos hfge, hout, if_true]
    constructor
    · apply convert_ok_mem_pre f st w i ct st2 ls w2 wt ho hm hcne h
      apply mem_preLines_of_shapeColor
      rw [hsh]
      exact List.mem_singleton.mpr rfl
    · have hwt4 : wt = "Arc" ∨ wt = "Ellipse" ∨ wt = "Rectangle" ∨
          wt = "Polygon" := by
        simpa [shapesList] using hwt
      rcases hwt4 with rfl | rfl | rfl | rfl <;>
        exact noBg_core f st w i ct st2 ls w2 _ ho hm h
          (genericColorLines_safe _ _ _ _ (Or.inr (by decide))) rfl rfl rfl
          rfl rfl rfl rfl
          (shapeColorLines_outline_safe _ _ _ _ _ hout)
          (by decide) (by decide) (by decide)
  · intro wt hm hwt hout hcne
    have hsh : shapeColorLines wt w st ct w.contents =
        ["    background: " ++ fg, "    border-color: " ++ fg] := by
      simp only [shapeColorLines, hct, and_true, if_pos hwt, hfg,
        if_pos hfge, hout, Bool.false_eq_true, if_false]
    constructor
    · apply convert_ok_mem_pre f st w i ct st2 ls w2 wt ho hm hcne h
      apply mem_preLines_of_shapeColor
      rw [hsh]
      exact List.mem_cons_self _ _
    · apply convert_ok_mem_pre f st w i ct st2 ls w2 wt ho hm hcne h
      apply mem_preLines_of_shapeColor
      rw [hsh]
      exact List.mem_cons_of_mem _ (List.mem_singleton.mpr rfl)

/-- Claim C6, counterexample: a polyline that carries a background
color emits a `background:` line (the generic color path does not
exclude line-like shapes from background emission), contradicting
"line-like shapes never emit a fill/background line". -/
theorem c6_counterexample :
    (convert_widget_to_lines 1 stC6 wPoly 0 ctC6).map (fun r => r.2.1) =
      .ok ["polyline_0: !Polyline", "    geometry: 0x0x10x10",
           "    border-color: *medm_color_0",
           "    background: *medm_color_0"] := by
  rfl

/-- Claim C6, witness: the polyline `wPolyFg` gets only a border-color
line, the outlined rectangle `wRectOutline` gets only a border-color
line, and the filled rectangle `wRectFilled` gets background plus
border-color. -/
theorem c6_witness :
    (("    border-color: *medm_color_0" : String) ∈
       ["polyline_0: !Polyline", "    geometry: 0x0x10x10",
        "    border-color: *medm_color_0"] ∧
     noBackgroundLine
       ["polyline_0: !Polyline", "    geometry: 0x0x10x10",
        "    border-color: *medm_color_0"]) ∧
    (("    border-color: *medm_color_0" : String) ∈
       ["rectangle_0: !Rectangle", "    geometry: 0x0x10x10",
        "    border-color: *medm_color_0"] ∧
     noBackgroundLine
       ["rectangle_0: !Rectangle", "    geometry: 0x0x10x10",
        "    border-color: *medm_color_0"]) ∧
    (("    background: *medm_color_0" : String) ∈
       ["rectangle_0: !Rectangle", "    geometry: 0x0x10x10",
        "    background: *medm_color_0", "    border-color: *medm_color_0"] ∧
     ("    border-color: *medm_color_0" : String) ∈
       ["rectangle_0: !Rectangle", "    geometry: 0x0x10x10",
        "    background: *medm_color_0", "    border-color: *medm_color_0"]) :=
  ⟨by
    have hp := (c6_color_routing 0 stC6 wPolyFg 0 ctC6 stC6
      ["polyline_0: !Polyline", "    geometry: 0x0x10x10",
       "    border-color: *medm_color_0"] wPolyFg "*medm_color_0"
      (by decide) (by rfl) (by decide) (by decide) (by decide)).1 (by decide)
    exact ⟨hp.1, hp.2 (by decide)⟩,
   (c6_color_routing 0 stC6 wRectOutline 0 ctC6 stC6
      ["rectangle_0: !Rectangle", "    geometry: 0x0x10x10",
       "    border-color: *medm_color_0"] wRectOutline "*medm_color_0"
      (by decide) (by rfl) (by decide) (by decide) (by decide)).2.1
     "Rectangle" (by decide) (by decide) (by decide),
   (c6_color_routing 0 stC6 wRectFilled 0 ctC6 stC6
      ["rectangle_0: !Rectangle", "    geometry: 0x0x10x10",
       "    background: *medm_color_0", "    border-color: *medm_color_0"]
      wRectFilled "*medm_color_0"
      (by decide) (by rfl) (by decide) (by decide) (by decide)).2.2
     "Rectangle" (by decide) (by decide) (by decide) (by decide)⟩

/-- Claim C1 (code-bug evidence): `convert_display` resets the color
map and color aliases (via `build_color_map`) but never resets
`calc_nodes` or `calc_node_counter`, so converting document B on the
instance that previously converted document A re-emits A's
`EnableCalc_1` Calc node in B's output, which therefore differs from a
fresh conversion of B. -/
theorem c1_cross_document_leak :
    ((convert_display 2 initState docA).bind
        (fun r => convert_display 2 r.1 docB)).map
        (fun r => occursIn "EnableCalc_1: !Calc" r.2) = .ok true ∧
    (convert_display 2 initState docB).map
        (fun r => occursIn "EnableCalc_1: !Calc" r.2) = .ok false ∧
    (((convert_display 2 initState docA).bind
        (fun r => convert_display 2 r.1 docB)).map (fun r => r.2)).toOption ≠
      ((convert_display 2 initState docB).map (fun r => r.2)).toOption := by
  refine ⟨by rfl, by rfl, by decide⟩

end Adl
